import Mathlib

/-!
# Verification development for the google-business-tracker core

Shallow embedding, in Lean 4, of the parts of the TypeScript source that the
specification's testable properties talk about:

* `src/utils/lock.ts` — the file-based run gate (`acquireLock`, `releaseLock`,
  `withLock`).  The lock file is modelled as an explicit `Option LockInfo`
  state threaded through the operations; process liveness (`process.kill(pid, 0)`)
  is an oracle `alive : Nat → Bool`; clock instants are epoch milliseconds.
* `src/utils/url.ts` — URL normalisation and canonical-key derivation.  The
  WHATWG `URL` platform class is modelled by an explicit parser/serialiser over
  a well-formed subset (single `://` separator, no port, no fragment, no
  percent-encoding, query strictly of `key=value` pairs); the functions of
  `url.ts` are translated on top of it.
* `src/services/change-detection.ts` — the snapshot differ.
* `src/services/playwright.ts` — interstitial classification and assembly of
  the `ExtractedData` record; the DOM being probed is abstracted as a
  `PageModel` that records the outcome of the individual field strategies,
  and the star-rating label parser is translated character by character.
* `src/services/session.ts` — `createBusiness` and `runCheck`, with the
  external collaborators (record store, sheets/drive services, clock) passed
  in as explicit data.

JavaScript conventions kept throughout: string truthiness (`null` and `""` are
falsy), `||` defaulting, exceptions as `Except String`.  Numbers that the code
manipulates exactly (review counts, star ratings after `Math.round(x*10)/10`)
are modelled as `ℤ`/`ℚ`.
-/

namespace GBT

/-- JavaScript truthiness of a nullable string (`null` and `""` are falsy). -/
def jsTruthy : Option String → Bool
  | none => false
  | some s => !s.isEmpty

/-! ## Run gate: `src/utils/lock.ts` -/

/-- `LockInfo` record persisted in the lock file (`pid`, `startedAt`, `command`).
`startedAt` is an epoch-millisecond instant (the code stores an ISO string and
compares `Date` values; the comparison only uses the instant). -/
structure LockInfo where
  pid : Nat
  startedAt : Nat
  command : String
deriving DecidableEq, Repr

/-- `STALE_THRESHOLD_MS = 60 * 60 * 1000` from `lock.ts`. -/
def STALE_THRESHOLD_MS : Nat := 60 * 60 * 1000

/-- `acquireLock` from `lock.ts`.  State is the content of the lock file
(`none` = no file).  `alive p` models `process.kill(p, 0)` succeeding.
Returns `(result, new lock-file state)`; `result = none` models returning
`null` (lock held).  Note `now - info.startedAt` in `Nat` truncates at `0`,
which agrees with the code: a negative age is not `> STALE_THRESHOLD_MS`. -/
def acquireLock (st : Option LockInfo) (alive : Nat → Bool)
    (callerPid now : Nat) (cmd : String) (overrideStale : Bool) :
    Option LockInfo × Option LockInfo :=
  match st with
  | some info =>
    if alive info.pid then
      if now - info.startedAt > STALE_THRESHOLD_MS then
        if overrideStale then
          let fresh : LockInfo := ⟨callerPid, now, cmd⟩
          (some fresh, some fresh)
        else
          (none, some info)
      else
        (none, some info)
    else
      let fresh : LockInfo := ⟨callerPid, now, cmd⟩
      (some fresh, some fresh)
  | none =>
    let fresh : LockInfo := ⟨callerPid, now, cmd⟩
    (some fresh, some fresh)

/-- `releaseLock` from `lock.ts`: delete the lock file only when the recorded
`pid` is the caller's own. -/
def releaseLock (st : Option LockInfo) (callerPid : Nat) : Option LockInfo :=
  match st with
  | some info => if info.pid = callerPid then none else some info
  | none => none

/-- `withLock` from `lock.ts`.  The body `work` is modelled by its outcome
(`Except.error` = the promise rejects / the work throws).  `fn().finally(...)`
releases on both the fulfilled and the rejected path, which the model renders
by pairing the unchanged `work` outcome with the released state. -/
def withLock {α : Type} (st : Option LockInfo) (alive : Nat → Bool)
    (callerPid now : Nat) (cmd : String) (overrideStale : Bool)
    (work : Except String α) : Except String α × Option LockInfo :=
  match acquireLock st alive callerPid now cmd overrideStale with
  | (none, st') => (Except.error "RUN_IN_PROGRESS", st')
  | (some _, st') => (work, releaseLock st' callerPid)

/-- **C1**: with no lock record present, the first caller's `acquireLock`
writes a record owned by it; a second logical caller invoking `withLock`
while that record is in place (the record being fresh and owned by a live
process) fails with `RUN_IN_PROGRESS` without running its work and without
touching the record, whatever its override flag; `withLock` returns the
work's own outcome — including a thrown failure, since `workA` ranges over
`Except.error` as well — and deletes the caller-owned record on that exit,
so a subsequent `withLock` by any caller acquires and runs its work. -/
theorem withLock_run_gate {α β : Type}
    (pidA pidB nowA nowB : Nat) (cmdA cmdB : String)
    (alive : Nat → Bool) (oA oB : Bool)
    (workA : Except String α) (workB workB' : Except String β)
    (hAlive : alive pidA = true)
    (hFresh : nowB - nowA ≤ STALE_THRESHOLD_MS) :
    (acquireLock none alive pidA nowA cmdA oA
      = (some ⟨pidA, nowA, cmdA⟩, some ⟨pidA, nowA, cmdA⟩))
    ∧ (withLock (some ⟨pidA, nowA, cmdA⟩) alive pidB nowB cmdB oB workB
      = (Except.error "RUN_IN_PROGRESS", some ⟨pidA, nowA, cmdA⟩))
    ∧ (withLock none alive pidA nowA cmdA oA workA = (workA, none))
    ∧ (withLock none alive pidB nowB cmdB oB workB' = (workB', none)) := by
  have hB : ¬ (nowB - nowA > STALE_THRESHOLD_MS) := by omega
  refine ⟨?_, ?_, ?_, ?_⟩ <;>
    simp [withLock, acquireLock, releaseLock, hAlive, hB]

/-- Witness for `withLock_run_gate` at concrete inputs: process 1 acquires at
instant 0, process 2 is refused at instant 1000 (lock fresh, owner alive),
process 1's work throws yet the lock is deleted, and process 2 then succeeds. -/
theorem withLock_run_gate_witness :
    (acquireLock none (fun _ => true) 1 0 "node cli check" false
      = (some ⟨1, 0, "node cli check"⟩, some ⟨1, 0, "node cli check"⟩))
    ∧ (withLock (some ⟨1, 0, "node cli check"⟩) (fun _ => true) 2 1000
        "node cli checkAll" true (Except.ok (0 : Nat))
      = (Except.error "RUN_IN_PROGRESS", some ⟨1, 0, "node cli check"⟩))
    ∧ (withLock none (fun _ => true) 1 0 "node cli check" false
        (Except.error "boom" : Except String Nat)
      = (Except.error "boom", none))
    ∧ (withLock none (fun _ => true) 2 1000 "node cli checkAll" true
        (Except.ok (7 : Nat)) = (Except.ok 7, none)) :=
  withLock_run_gate 1 2 0 1000 "node cli check" "node cli checkAll"
    (fun _ => true) false true (Except.error "boom")
    (Except.ok 0) (Except.ok 7) rfl (by decide)

/-! ## Data model: `src/types/snapshot.ts` -/

/-- `OpenClosedStatus` from `snapshot.ts`. -/
inductive OpenClosedStatus where
  | OPEN
  | TEMPORARILY_CLOSED
  | PERMANENTLY_CLOSED
  | UNKNOWN
deriving DecidableEq, Repr

/-- The string each `OpenClosedStatus` value denotes (they are string-literal
union members in TypeScript). -/
def OpenClosedStatus.asString : OpenClosedStatus → String
  | .OPEN => "OPEN"
  | .TEMPORARILY_CLOSED => "TEMPORARILY_CLOSED"
  | .PERMANENTLY_CLOSED => "PERMANENTLY_CLOSED"
  | .UNKNOWN => "UNKNOWN"

/-- `ErrorCode` from `snapshot.ts` (the closed error taxonomy). -/
inductive ErrorCode where
  | INVALID_URL
  | NOT_LOGGED_IN
  | PAGE_LOAD_FAILED
  | EXTRACTION_FAILED
  | CONSENT_REQUIRED
  | BOT_DETECTED
  | SHEETS_AUTH_REQUIRED
  | SHEETS_WRITE_FAILED
  | DRIVE_AUTH_REQUIRED
  | DRIVE_WRITE_FAILED
  | RUN_IN_PROGRESS
deriving DecidableEq, Repr

/-- `Snapshot` from `snapshot.ts`.  `reviewCount` is an exact integer and
`starRating` an exact rational (the code produces it as
`Math.round(x*10)/10`); the TypeScript `number` is modelled exactly rather
than as a binary float.  `errorCode` is typed with the closed taxonomy (the
TypeScript field is `string | null` but every writer puts an `ErrorCode` or
`null` there). -/
structure Snapshot where
  date : String
  checkedAt : String
  link : Option String
  name : Option String
  address : Option String
  webpage : Option String
  phone : Option String
  openClosedStatus : OpenClosedStatus
  reviewCount : Option ℤ
  starRating : Option ℚ
  activity : String
  errorCode : Option ErrorCode
  screenshotLink : Option String
deriving DecidableEq, Repr

/-- `ExtractedData` from `snapshot.ts`. -/
structure ExtractedData where
  link : Option String
  name : Option String
  address : Option String
  webpage : Option String
  phone : Option String
  openClosedStatus : OpenClosedStatus
  reviewCount : Option ℤ
  starRating : Option ℚ
  errorCode : Option ErrorCode
deriving DecidableEq, Repr

/-! ## Change detector: `src/services/change-detection.ts`

Each `changes.push(...)` site of `detectChanges` becomes one small function
returning `[]` or a one-element list; `detectChangesList` concatenates them in
source order (the `changes` array), and `detectChanges` joins with `"; "`. -/

/-- The `Link: added|removed|changed` block of `detectChanges`. -/
def linkChange (b c : Snapshot) : List String :=
  if b.link ≠ c.link then
    if !jsTruthy b.link && jsTruthy c.link then ["Link: added"]
    else if jsTruthy b.link && !jsTruthy c.link then ["Link: removed"]
    else ["Link: changed"]
  else []

/-- The `Name: changed` block of `detectChanges`. -/
def nameChange (b c : Snapshot) : List String :=
  if b.name ≠ c.name ∧ jsTruthy b.name ∧ jsTruthy c.name then ["Name: changed"]
  else []

/-- The `Address: changed|removed` block of `detectChanges`. -/
def addressChange (b c : Snapshot) : List String :=
  if b.address ≠ c.address then
    if jsTruthy b.address && !jsTruthy c.address then ["Address: removed"]
    else if jsTruthy b.address && jsTruthy c.address then ["Address: changed"]
    else []
  else []

/-- The `Webpage: changed|removed` block of `detectChanges`. -/
def webpageChange (b c : Snapshot) : List String :=
  if b.webpage ≠ c.webpage then
    if jsTruthy b.webpage && !jsTruthy c.webpage then ["Webpage: removed"]
    else if jsTruthy b.webpage && jsTruthy c.webpage then ["Webpage: changed"]
    else []
  else []

/-- The `Phone: changed|removed` block of `detectChanges`. -/
def phoneChange (b c : Snapshot) : List String :=
  if b.phone ≠ c.phone then
    if jsTruthy b.phone && !jsTruthy c.phone then ["Phone: removed"]
    else if jsTruthy b.phone && jsTruthy c.phone then ["Phone: changed"]
    else []
  else []

/-- The `OpenClosedStatus: OLD → NEW` block of `detectChanges`. -/
def statusChange (b c : Snapshot) : List String :=
  if b.openClosedStatus ≠ c.openClosedStatus then
    ["OpenClosedStatus: " ++ (b.openClosedStatus.asString ++ (" → " ++
      c.openClosedStatus.asString))]
  else []

/-- The `ReviewCount: ±X (OLD → NEW)` block of `detectChanges`. -/
def reviewCountChange (b c : Snapshot) : List String :=
  match b.reviewCount, c.reviewCount with
  | some rb, some rc =>
    if rb ≠ rc then
      let diff := rc - rb
      let sign := if diff > 0 then "+" else ""
      ["ReviewCount: " ++ (sign ++ (toString diff ++ (" (" ++ (toString rb ++
        (" → " ++ (toString rc ++ ")"))))))]
    else []
  | _, _ => []

/-- The `StarRating: OLD → NEW (increased|decreased)` block of
`detectChanges`.  Numeral rendering of the rating is Lean's rational
rendering; only the constant `"StarRating: "` head matters to the theorems. -/
def starRatingChange (b c : Snapshot) : List String :=
  match b.starRating, c.starRating with
  | some rb, some rc =>
    if rb ≠ rc then
      let direction := if rc > rb then "increased" else "decreased"
      ["StarRating: " ++ (toString rb ++ (" → " ++ (toString rc ++
        (" (" ++ (direction ++ ")")))))]
    else []
  | _, _ => []

/-- The `changes` array assembled by `detectChanges`, in source push order. -/
def detectChangesList (b c : Snapshot) : List String :=
  linkChange b c ++ nameChange b c ++ addressChange b c ++ webpageChange b c ++
    phoneChange b c ++ statusChange b c ++ reviewCountChange b c ++
    starRatingChange b c

/-- `detectChanges` from `change-detection.ts`: empty on a missing baseline,
otherwise the pushed changes joined with `"; "`. -/
def detectChanges (baseline : Option Snapshot) (current : Snapshot) : String :=
  match baseline with
  | none => ""
  | some b => String.intercalate "; " (detectChangesList b current)

/-! ### Lemmas about the differ -/

/-- A string with head character `c` followed by anything keeps head `c`. -/
lemma strHead_append (s t : String) (c : Char) (h : s.data.head? = some c) :
    (s ++ t).data.head? = some c := by
  rw [String.data_append]
  cases hs : s.data with
  | nil => rw [hs] at h; simp at h
  | cons a l => rw [hs] at h; simpa using h

/-- Strings with distinct head characters differ. -/
lemma strNe_of_head {s t : String} {c d : Char} (h1 : s.data.head? = some c)
    (h2 : t.data.head? = some d) (hne : c ≠ d) : s ≠ t := by
  intro he
  subst he
  rw [h1] at h2
  exact hne (Option.some.inj h2)

/-- The common shape of the address/webpage/phone blocks of `detectChanges`
(definitionally equal to each of them). -/
def sparseBlock (removedMsg changedMsg : String) (ob oc : Option String) :
    List String :=
  if ob ≠ oc then
    if jsTruthy ob && !jsTruthy oc then [removedMsg]
    else if jsTruthy ob && jsTruthy oc then [changedMsg]
    else []
  else []

lemma addressChange_eq_sparseBlock (b c : Snapshot) :
    addressChange b c =
      sparseBlock "Address: removed" "Address: changed" b.address c.address := rfl

lemma webpageChange_eq_sparseBlock (b c : Snapshot) :
    webpageChange b c =
      sparseBlock "Webpage: removed" "Webpage: changed" b.webpage c.webpage := rfl

lemma phoneChange_eq_sparseBlock (b c : Snapshot) :
    phoneChange b c =
      sparseBlock "Phone: removed" "Phone: changed" b.phone c.phone := rfl

lemma mem_sparseBlock {r ch s : String} {ob oc : Option String}
    (h : s ∈ sparseBlock r ch ob oc) : s = r ∨ s = ch := by
  unfold sparseBlock at h
  split at h
  · split at h
    · simp at h; exact Or.inl h
    · split at h
      · simp at h; exact Or.inr h
      · simp at h
  · simp at h

lemma sparseBlock_removed_iff {r ch : String} (hne : r ≠ ch)
    (ob oc : Option String) :
    (r ∈ sparseBlock r ch ob oc) ↔
      (jsTruthy ob = true ∧ jsTruthy oc = false) := by
  unfold sparseBlock
  rcases ob with _ | sb <;> rcases oc with _ | sc
  · simp [jsTruthy]
  · simp [jsTruthy]
  · by_cases hb : sb.isEmpty <;> simp [jsTruthy, hb]
  · by_cases hb : sb.isEmpty <;> by_cases hc : sc.isEmpty <;>
      by_cases hbc : sb = sc <;>
      simp_all [jsTruthy, String.isEmpty_iff, hne]

lemma sparseBlock_changed_iff {r ch : String} (hne : r ≠ ch)
    (ob oc : Option String) :
    (ch ∈ sparseBlock r ch ob oc) ↔
      (jsTruthy ob = true ∧ jsTruthy oc = true ∧ ob ≠ oc) := by
  unfold sparseBlock
  rcases ob with _ | sb <;> rcases oc with _ | sc
  · simp [jsTruthy]
  · simp [jsTruthy]
  · by_cases hb : sb.isEmpty <;> simp [jsTruthy, hb, Ne.symm hne]
  · by_cases hb : sb.isEmpty <;> by_cases hc : sc.isEmpty <;>
      by_cases hbc : sb = sc <;>
      simp_all [jsTruthy, String.isEmpty_iff, Ne.symm hne]

lemma sparseBlock_other_not_mem {r ch x : String} (hx1 : x ≠ r) (hx2 : x ≠ ch)
    (ob oc : Option String) : x ∉ sparseBlock r ch ob oc := by
  intro h
  rcases mem_sparseBlock h with rfl | rfl
  · exact hx1 rfl
  · exact hx2 rfl

lemma mem_linkChange {b c : Snapshot} {s : String} (h : s ∈ linkChange b c) :
    s = "Link: added" ∨ s = "Link: removed" ∨ s = "Link: changed" := by
  unfold linkChange at h
  split at h
  · split at h
    · simp at h; exact Or.inl h
    · split at h
      · simp at h; exact Or.inr (Or.inl h)
      · simp at h; exact Or.inr (Or.inr h)
  · simp at h

lemma mem_nameChange {b c : Snapshot} {s : String} (h : s ∈ nameChange b c) :
    s = "Name: changed" := by
  unfold nameChange at h
  split at h
  · simpa using h
  · simp at h

lemma head_of_mem_statusChange {b c : Snapshot} {s : String}
    (h : s ∈ statusChange b c) : s.data.head? = some 'O' := by
  unfold statusChange at h
  split at h
  · simp at h
    subst h
    exact strHead_append _ _ _ (by decide)
  · simp at h

lemma head_of_mem_reviewCountChange {b c : Snapshot} {s : String}
    (h : s ∈ reviewCountChange b c) : s.data.head? = some 'R' := by
  unfold reviewCountChange at h
  split at h
  · split at h
    · simp at h
      subst h
      exact strHead_append _ _ _ (by decide)
    · simp at h
  · simp at h

lemma head_of_mem_starRatingChange {b c : Snapshot} {s : String}
    (h : s ∈ starRatingChange b c) : s.data.head? = some 'S' := by
  unfold starRatingChange at h
  split at h
  · split at h
    · simp at h
      subst h
      exact strHead_append _ _ _ (by decide)
    · simp at h
  · simp at h

lemma mem_detectChangesList_iff_address {b c : Snapshot} {s : String}
    (hh : s.data.head? = some 'A') :
    (s ∈ detectChangesList b c ↔ s ∈ addressChange b c) := by
  unfold detectChangesList
  simp only [List.mem_append, or_assoc]
  constructor
  · rintro (hL | hN | hA | hW | hP | hS | hR | hSt)
    · rcases mem_linkChange hL with rfl | rfl | rfl <;> exact absurd hh (by decide)
    · rcases mem_nameChange hN with rfl; exact absurd hh (by decide)
    · exact hA
    · rw [webpageChange_eq_sparseBlock] at hW
      rcases mem_sparseBlock hW with rfl | rfl <;> exact absurd hh (by decide)
    · rw [phoneChange_eq_sparseBlock] at hP
      rcases mem_sparseBlock hP with rfl | rfl <;> exact absurd hh (by decide)
    · have h0 := head_of_mem_statusChange hS
      rw [hh] at h0; exact absurd h0 (by decide)
    · have h0 := head_of_mem_reviewCountChange hR
      rw [hh] at h0; exact absurd h0 (by decide)
    · have h0 := head_of_mem_starRatingChange hSt
      rw [hh] at h0; exact absurd h0 (by decide)
  · intro h
    tauto

lemma mem_detectChangesList_iff_webpage {b c : Snapshot} {s : String}
    (hh : s.data.head? = some 'W') :
    (s ∈ detectChangesList b c ↔ s ∈ webpageChange b c) := by
  unfold detectChangesList
  simp only [List.mem_append, or_assoc]
  constructor
  · rintro (hL | hN | hA | hW | hP | hS | hR | hSt)
    · rcases mem_linkChange hL with rfl | rfl | rfl <;> exact absurd hh (by decide)
    · rcases mem_nameChange hN with rfl; exact absurd hh (by decide)
    · rw [addressChange_eq_sparseBlock] at hA
      rcases mem_sparseBlock hA with rfl | rfl <;> exact absurd hh (by decide)
    · exact hW
    · rw [phoneChange_eq_sparseBlock] at hP
      rcases mem_sparseBlock hP with rfl | rfl <;> exact absurd hh (by decide)
    · have h0 := head_of_mem_statusChange hS
      rw [hh] at h0; exact absurd h0 (by decide)
    · have h0 := head_of_mem_reviewCountChange hR
      rw [hh] at h0; exact absurd h0 (by decide)
    · have h0 := head_of_mem_starRatingChange hSt
      rw [hh] at h0; exact absurd h0 (by decide)
  · intro h
    tauto

lemma mem_detectChangesList_iff_phone {b c : Snapshot} {s : String}
    (hh : s.data.head? = some 'P') :
    (s ∈ detectChangesList b c ↔ s ∈ phoneChange b c) := by
  unfold detectChangesList
  simp only [List.mem_append, or_assoc]
  constructor
  · rintro (hL | hN | hA | hW | hP | hS | hR | hSt)
    · rcases mem_linkChange hL with rfl | rfl | rfl <;> exact absurd hh (by decide)
    · rcases mem_nameChange hN with rfl; exact absurd hh (by decide)
    · rw [addressChange_eq_sparseBlock] at hA
      rcases mem_sparseBlock hA with rfl | rfl <;> exact absurd hh (by decide)
    · rw [webpageChange_eq_sparseBlock] at hW
      rcases mem_sparseBlock hW with rfl | rfl <;> exact absurd hh (by decide)
    · exact hP
    · have h0 := head_of_mem_statusChange hS
      rw [hh] at h0; exact absurd h0 (by decide)
    · have h0 := head_of_mem_reviewCountChange hR
      rw [hh] at h0; exact absurd h0 (by decide)
    · have h0 := head_of_mem_starRatingChange hSt
      rw [hh] at h0; exact absurd h0 (by decide)
  · intro h
    tauto

/-- **C9**: in every comparison of a baseline snapshot against a current one,
each of the address, webpage and phone fields is reported `removed` exactly
when the baseline value is present (non-null, non-empty) and the current one
absent; reported `changed` exactly when both sides are present and differ;
and never reported `added` — in particular nothing is reported when the
baseline value is absent and the current one present. -/
theorem detectChanges_sparse_field_policy (b c : Snapshot) :
    (("Address: removed" ∈ detectChangesList b c) ↔
        (jsTruthy b.address = true ∧ jsTruthy c.address = false))
    ∧ (("Address: changed" ∈ detectChangesList b c) ↔
        (jsTruthy b.address = true ∧ jsTruthy c.address = true ∧
          b.address ≠ c.address))
    ∧ ("Address: added" ∉ detectChangesList b c)
    ∧ (("Webpage: removed" ∈ detectChangesList b c) ↔
        (jsTruthy b.webpage = true ∧ jsTruthy c.webpage = false))
    ∧ (("Webpage: changed" ∈ detectChangesList b c) ↔
        (jsTruthy b.webpage = true ∧ jsTruthy c.webpage = true ∧
          b.webpage ≠ c.webpage))
    ∧ ("Webpage: added" ∉ detectChangesList b c)
    ∧ (("Phone: removed" ∈ detectChangesList b c) ↔
        (jsTruthy b.phone = true ∧ jsTruthy c.phone = false))
    ∧ (("Phone: changed" ∈ detectChangesList b c) ↔
        (jsTruthy b.phone = true ∧ jsTruthy c.phone = true ∧
          b.phone ≠ c.phone))
    ∧ ("Phone: added" ∉ detectChangesList b c) := by
  refine ⟨?_, ?_, ?_, ?_, ?_, ?_, ?_, ?_, ?_⟩
  · rw [mem_detectChangesList_iff_address (by decide),
      addressChange_eq_sparseBlock]
    exact sparseBlock_removed_iff (by decide) _ _
  · rw [mem_detectChangesList_iff_address (by decide),
      addressChange_eq_sparseBlock]
    exact sparseBlock_changed_iff (by decide) _ _
  · rw [mem_detectChangesList_iff_address (by decide),
      addressChange_eq_sparseBlock]
    exact sparseBlock_other_not_mem (by decide) (by decide) _ _
  · rw [mem_detectChangesList_iff_webpage (by decide),
      webpageChange_eq_sparseBlock]
    exact sparseBlock_removed_iff (by decide) _ _
  · rw [mem_detectChangesList_iff_webpage (by decide),
      webpageChange_eq_sparseBlock]
    exact sparseBlock_changed_iff (by decide) _ _
  · rw [mem_detectChangesList_iff_webpage (by decide),
      webpageChange_eq_sparseBlock]
    exact sparseBlock_other_not_mem (by decide) (by decide) _ _
  · rw [mem_detectChangesList_iff_phone (by decide),
      phoneChange_eq_sparseBlock]
    exact sparseBlock_removed_iff (by decide) _ _
  · rw [mem_detectChangesList_iff_phone (by decide),
      phoneChange_eq_sparseBlock]
    exact sparseBlock_changed_iff (by decide) _ _
  · rw [mem_detectChangesList_iff_phone (by decide),
      phoneChange_eq_sparseBlock]
    exact sparseBlock_other_not_mem (by decide) (by decide) _ _

/-! ## URL model and `src/utils/url.ts`

`url.ts` manipulates URLs through the WHATWG `URL` platform class.  The model
gives that class an explicit parser/serialiser over character lists, covering
a well-formed subset: `scheme://host/path?k1=v1&k2=v2` with an ASCII-alpha
scheme, a non-empty host, no port, no fragment (`#` rejected), no colon after
the scheme separator, no percent-encoding, and a query made strictly of
`key=value` pairs.  Inputs outside the subset parse to `none` (which the
translated functions treat exactly as the code treats a `URL` constructor
throw).  On this subset the parser and serialiser are mutually inverse, which
is proved below and is what the `cid`-deletion argument rests on. -/

/-- ASCII letter (scheme characters). -/
def isAsciiAlpha (c : Char) : Bool :=
  ('a' ≤ c && c ≤ 'z') || ('A' ≤ c && c ≤ 'Z')

/-- ASCII lower-case letter (`[a-z]` in the locale regex). -/
def isLowerAlpha (c : Char) : Bool := 'a' ≤ c && c ≤ 'z'

/-- ASCII upper-case letter (`[A-Z]` in the locale regex). -/
def isUpperAlpha (c : Char) : Bool := 'A' ≤ c && c ≤ 'Z'

/-- `pat` is a prefix of `l`. -/
def startsWithSeq : List Char → List Char → Bool
  | [], _ => true
  | _ :: _, [] => false
  | p :: ps, c :: cs => p = c && startsWithSeq ps cs

/-- `pat` occurs somewhere in `l`. -/
def containsSeq (pat : List Char) : List Char → Bool
  | [] => pat.isEmpty
  | c :: rest => startsWithSeq pat (c :: rest) || containsSeq pat rest

/-- Split at the first `"://"`, returning the part before and after it. -/
def splitSchemeSep : List Char → Option (List Char × List Char)
  | [] => none
  | c :: rest =>
    if c = ':' && startsWithSeq ['/', '/'] rest then some ([], rest.drop 2)
    else (splitSchemeSep rest).map (fun pr => (c :: pr.1, pr.2))

/-- Split on every occurrence of `sep` (like `String.prototype.split`):
always returns at least one (possibly empty) piece. -/
def splitOnChar (sep : Char) : List Char → List (List Char)
  | [] => [[]]
  | c :: rest =>
    if c = sep then [] :: splitOnChar sep rest
    else
      match splitOnChar sep rest with
      | [] => [[c]]
      | h :: t => (c :: h) :: t

/-- The parsed form of a URL in the modelled subset. -/
structure ParsedUrl where
  scheme : List Char
  host : List Char
  pathname : List Char
  params : List (List Char × List Char)
deriving DecidableEq, Repr

/-- Parse one `key=value` query pair (key non-empty, exactly one `=`). -/
def parseQueryPair (p : List Char) : Option (List Char × List Char) :=
  match splitOnChar '=' p with
  | [k, v] => if k = [] then none else some (k, v)
  | _ => none

/-- Parse a list of query pieces; every piece must parse. -/
def parseQueryList : List (List Char) → Option (List (List Char × List Char))
  | [] => some []
  | p :: rest =>
    match parseQueryPair p, parseQueryList rest with
    | some kv, some kvs => some (kv :: kvs)
    | _, _ => none

/-- Parse a query string into its pairs. -/
def parseQueryPairs (q : List Char) : Option (List (List Char × List Char)) :=
  parseQueryList (splitOnChar '&' q)

/-- Parse a URL of the modelled subset (`none` models the `URL` constructor
throwing). -/
def parseUrlChars (l : List Char) : Option ParsedUrl :=
  if l.any (fun c => c = '#') then none
  else
    match splitSchemeSep l with
    | none => none
    | some (scheme, rest) =>
      if scheme = [] then none
      else if !scheme.all isAsciiAlpha then none
      else if rest.any (fun c => c = ':') then none
      else
        match splitOnChar '?' rest with
        | [hostPath] =>
          let host := hostPath.takeWhile (· ≠ '/')
          let path := hostPath.dropWhile (· ≠ '/')
          if host = [] then none else some ⟨scheme, host, path, []⟩
        | [hostPath, query] =>
          match parseQueryPairs query with
          | none => none
          | some ps =>
            let host := hostPath.takeWhile (· ≠ '/')
            let path := hostPath.dropWhile (· ≠ '/')
            if host = [] then none else some ⟨scheme, host, path, ps⟩
        | _ => none

/-- Serialise the query pairs (`k1=v1&k2=v2`). -/
def serializeQuery : List (List Char × List Char) → List Char
  | [] => []
  | [kv] => kv.1 ++ '=' :: kv.2
  | kv :: rest => kv.1 ++ '=' :: kv.2 ++ '&' :: serializeQuery rest

/-- Serialise a parsed URL back to characters (`URL.prototype.toString` on
the modelled subset). -/
def serializeUrlChars (u : ParsedUrl) : List Char :=
  u.scheme ++ ':' :: '/' :: '/' ::
    (u.host ++ (u.pathname ++
      (match u.params with
       | [] => []
       | _ => '?' :: serializeQuery u.params)))

/-- Hexadecimal digit value. -/
def hexVal (c : Char) : Option Nat :=
  if '0' ≤ c ∧ c ≤ '9' then some (c.toNat - 48)
  else if 'A' ≤ c ∧ c ≤ 'F' then some (c.toNat - 55)
  else if 'a' ≤ c ∧ c ≤ 'f' then some (c.toNat - 87)
  else none

/-- `application/x-www-form-urlencoded` decoding of a query value, as
`URLSearchParams` applies when a parameter is read (`%XX` unescaped, `+` to
space).  The model keeps the encoded octets in `ParsedUrl.params` — which is
what `toString` re-emits — and decodes at `get`, observably matching the
platform class on canonically-encoded input. -/
def decodePercent : List Char → List Char
  | [] => []
  | '%' :: a :: b :: rest =>
    (match hexVal a, hexVal b with
     | some x, some y => Char.ofNat (16 * x + y) :: decodePercent rest
     | _, _ => '%' :: decodePercent (a :: b :: rest))
  | '+' :: rest => ' ' :: decodePercent rest
  | c :: rest => c :: decodePercent rest

/-- First query parameter value for a key (`URLSearchParams.prototype.get`,
`none` for `null`), decoded. -/
def getParam (u : ParsedUrl) (k : List Char) : Option (List Char) :=
  (u.params.find? (fun kv => kv.1 == k)).map (fun kv => decodePercent kv.2)

/-- The tracking parameter names deleted by `normalizeGoogleMapsUrl`. -/
def trackingParams : List (List Char) :=
  ["utm_source".data, "utm_medium".data, "utm_campaign".data, "gid".data,
    "cid".data]

/-- The locale-segment strip
(`pathname.replace(/^\/([a-z]{2}(?:-[A-Z]{2})?)\//, '/')`). -/
def stripLocale (p : List Char) : List Char :=
  match p with
  | '/' :: a :: b :: '/' :: rest =>
    if isLowerAlpha a && isLowerAlpha b then '/' :: rest else p
  | '/' :: a :: b :: '-' :: c :: d :: '/' :: rest =>
    if isLowerAlpha a && isLowerAlpha b && isUpperAlpha c && isUpperAlpha d
    then '/' :: rest else p
  | _ => p

/-- The `/maps/place/` path prefix. -/
def placePat : List Char := "/maps/place/".data

/-- The `/maps/place/<name>(/<id>)?` path rewrite of `normalizeGoogleMapsUrl`
(`pathname.match(/^\/maps\/place\/([^/]+)(?:\/([^/]+))?/)` and rebuild). -/
def normPlacePath (p : List Char) : List Char :=
  if startsWithSeq placePat p then
    let after := p.drop placePat.length
    let name := after.takeWhile (· ≠ '/')
    if name = [] then p
    else
      let rest2 := after.dropWhile (· ≠ '/')
      if rest2 = [] then placePat ++ name
      else
        let pid := (rest2.drop 1).takeWhile (· ≠ '/')
        if pid = [] then placePat ++ name
        else placePat ++ name ++ '/' :: pid
  else p

/-- `normalizeGoogleMapsUrl` from `url.ts`: delete tracking parameters
(including `cid`), strip a leading locale segment, canonicalise a
`/maps/place/` path, delete `zoom` and `hl`, and re-serialise; on a parse
failure return the input unchanged (the `catch` branch). -/
def normalizeGoogleMapsUrl (s : String) : String :=
  match parseUrlChars s.data with
  | none => s
  | some u =>
    let u1 : ParsedUrl :=
      { u with params := u.params.filter (fun kv => !trackingParams.contains kv.1) }
    let p1 := stripLocale u1.pathname
    let p2 := normPlacePath p1
    let u2 : ParsedUrl := { u1 with pathname := p2 }
    let u3 : ParsedUrl :=
      { u2 with params :=
          u2.params.filter (fun kv => !(kv.1 == "zoom".data) && !(kv.1 == "hl".data)) }
    ⟨serializeUrlChars u3⟩

/-- Match `\/maps\/place\/[^/]+\/([^/?]+)` at the head of `l`. -/
def matchPlaceAt (l : List Char) : Option (List Char) :=
  if startsWithSeq placePat l then
    let after := l.drop placePat.length
    let seg := after.takeWhile (· ≠ '/')
    if seg = [] then none
    else
      match after.dropWhile (· ≠ '/') with
      | '/' :: r =>
        let cap := r.takeWhile (fun c => c ≠ '/' && c ≠ '?')
        if cap = [] then none else some cap
      | _ => none
  else none

/-- Unanchored search for the place-id path pattern (regex `match`). -/
def findPlaceId : List Char → Option (List Char)
  | [] => none
  | c :: rest =>
    match matchPlaceAt (c :: rest) with
    | some r => some r
    | none => findPlaceId rest

/-- Match `!3d[^!]*!4d[^!]*!16s([^!]+)` at the head of `l`. -/
def matchDataPlaceAt (l : List Char) : Option (List Char) :=
  if startsWithSeq "!3d".data l then
    let r1 := (l.drop 3).dropWhile (· ≠ '!')
    if startsWithSeq "!4d".data r1 then
      let r2 := (r1.drop 3).dropWhile (· ≠ '!')
      if startsWithSeq "!16s".data r2 then
        let cap := (r2.drop 4).takeWhile (· ≠ '!')
        if cap = [] then none else some cap
      else none
    else none
  else none

/-- Unanchored search for the `data`-parameter place-id pattern. -/
def findDataPlaceId : List Char → Option (List Char)
  | [] => none
  | c :: rest =>
    match matchDataPlaceAt (c :: rest) with
    | some r => some r
    | none => findDataPlaceId rest

/-- `extractPlaceId` from `url.ts`: second `/maps/place/` path segment,
falling back to the `!16s` marker inside a truthy `data` parameter. -/
def extractPlaceId (s : String) : Option String :=
  match parseUrlChars s.data with
  | none => none
  | some u =>
    match findPlaceId u.pathname with
    | some r => some ⟨r⟩
    | none =>
      match getParam u "data".data with
      | some d => if d = [] then none else (findDataPlaceId d).map (fun r => ⟨r⟩)
      | none => none

/-- Match `cid[=:]([^&!]+)` at the head of `l`. -/
def matchCidAt (l : List Char) : Option (List Char) :=
  if startsWithSeq "cid".data l then
    match l.drop 3 with
    | c :: r =>
      if c = '=' ∨ c = ':' then
        let cap := r.takeWhile (fun x => x ≠ '&' && x ≠ '!')
        if cap = [] then none else some cap
      else none
    | [] => none
  else none

/-- Unanchored search for the `data`-parameter cid pattern. -/
def findDataCid : List Char → Option (List Char)
  | [] => none
  | c :: rest =>
    match matchCidAt (c :: rest) with
    | some r => some r
    | none => findDataCid rest

/-- The `data`-parameter fallback of `extractCid`. -/
def dataCidCheck (u : ParsedUrl) : Option String :=
  match getParam u "data".data with
  | some d => if d = [] then none else (findDataCid d).map (fun r => ⟨r⟩)
  | none => none

/-- `extractCid` from `url.ts`: truthy `cid` query parameter, falling back to
the `cid[=:]` marker inside a truthy `data` parameter. -/
def extractCid (s : String) : Option String :=
  match parseUrlChars s.data with
  | none => none
  | some u =>
    match getParam u "cid".data with
    | some c => if c = [] then dataCidCheck u else some ⟨c⟩
    | none => dataCidCheck u

/-- `deriveCanonicalBusinessKey` from `url.ts`: priority
`place_id > cid > normalized URL`, with JavaScript truthiness on the two
optional identifiers (`null` and `""` both take the next branch). -/
def deriveCanonicalBusinessKey (url : String) (placeId cid : Option String) :
    String :=
  if jsTruthy placeId then "place_id:" ++ placeId.getD ""
  else if jsTruthy cid then "cid:" ++ cid.getD ""
  else "url:" ++ normalizeGoogleMapsUrl url

lemma jsTruthy_some_iff (s : String) : jsTruthy (some s) = true ↔ s ≠ "" := by
  have h := String.isEmpty_iff s
  simp [jsTruthy, ← h]

lemma isEmpty_false_of_ne (s : String) (h : s ≠ "") : s.isEmpty = false := by
  cases hb : s.isEmpty
  · rfl
  · exact absurd ((String.isEmpty_iff s).mp hb) h

/-- **C5 counterexample**: the claim "for every input with `placeId` non-null
the key is `'place_id:'+placeId`" fails at the non-null empty string: the code
tests JavaScript truthiness (`if (placeId)`), so `placeId = ""` falls through
to the `cid` branch. -/
theorem deriveCanonicalBusinessKey_empty_placeId :
    deriveCanonicalBusinessKey "https://maps.google.com/maps/place/Cafe"
        (some "") (some "123") = "cid:123"
    ∧ deriveCanonicalBusinessKey "https://maps.google.com/maps/place/Cafe"
        (some "") (some "123") ≠ "place_id:" ++ "" := by
  constructor
  · rfl
  · decide

/-- **C5 (amended)**: `deriveCanonicalBusinessKey` is a pure function of its
three arguments — in this translation it is literally a function, and the
source reads nothing but its parameters, so determinism is by construction;
the conjuncts below restate it as insensitivity of the key to the `url`
argument whenever an identifier wins.  Priority place-id > cid > normalized
URL holds for non-null *and non-empty* (JavaScript-truthy) identifiers: a
truthy `placeId` alone determines the key whatever `url` and `cid` are, a
truthy `cid` determines it whatever `url` is when `placeId` is null or empty,
and otherwise the key is the normalized URL with the `url:` prefix.  In
particular two URLs that differ only in tracking parameters but share a
place-id get the same key. -/
theorem deriveCanonicalBusinessKey_priority
    (url url2 : String) (p c : String) (cid2 : Option String)
    (hp : p ≠ "") (hc : c ≠ "") :
    (deriveCanonicalBusinessKey url (some p) cid2 = "place_id:" ++ p)
    ∧ (deriveCanonicalBusinessKey url2 (some p) cid2
        = deriveCanonicalBusinessKey url (some p) cid2)
    ∧ (deriveCanonicalBusinessKey url none (some c) = "cid:" ++ c)
    ∧ (deriveCanonicalBusinessKey url (some "") (some c) = "cid:" ++ c)
    ∧ (deriveCanonicalBusinessKey url2 none (some c)
        = deriveCanonicalBusinessKey url none (some c))
    ∧ (deriveCanonicalBusinessKey url none none
        = "url:" ++ normalizeGoogleMapsUrl url)
    ∧ (deriveCanonicalBusinessKey url (some "") none
        = "url:" ++ normalizeGoogleMapsUrl url) := by
  have hpe : p.isEmpty = false := isEmpty_false_of_ne p hp
  have hce : c.isEmpty = false := isEmpty_false_of_ne c hc
  have he0 : ("" : String).isEmpty = true := by decide
  refine ⟨?_, ?_, ?_, ?_, ?_, ?_, ?_⟩ <;>
    simp [deriveCanonicalBusinessKey, jsTruthy, hpe, hce, he0]

/-- Witness for `deriveCanonicalBusinessKey_priority`: two different URLs, a
place id `"ChIJabc"` and a cid `"42"`. -/
theorem deriveCanonicalBusinessKey_priority_witness :
    (deriveCanonicalBusinessKey "https://maps.google.com/a?utm_source=x"
        (some "ChIJabc") (some "42") = "place_id:" ++ "ChIJabc")
    ∧ (deriveCanonicalBusinessKey "https://maps.google.com/b"
        (some "ChIJabc") (some "42")
        = deriveCanonicalBusinessKey "https://maps.google.com/a?utm_source=x"
            (some "ChIJabc") (some "42"))
    ∧ (deriveCanonicalBusinessKey "https://maps.google.com/a?utm_source=x"
        none (some "42") = "cid:" ++ "42")
    ∧ (deriveCanonicalBusinessKey "https://maps.google.com/a?utm_source=x"
        (some "") (some "42") = "cid:" ++ "42")
    ∧ (deriveCanonicalBusinessKey "https://maps.google.com/b" none (some "42")
        = deriveCanonicalBusinessKey "https://maps.google.com/a?utm_source=x"
            none (some "42"))
    ∧ (deriveCanonicalBusinessKey "https://maps.google.com/a?utm_source=x"
        none none
        = "url:" ++ normalizeGoogleMapsUrl "https://maps.google.com/a?utm_source=x")
    ∧ (deriveCanonicalBusinessKey "https://maps.google.com/a?utm_source=x"
        (some "") none
        = "url:" ++ normalizeGoogleMapsUrl "https://maps.google.com/a?utm_source=x") :=
  deriveCanonicalBusinessKey_priority "https://maps.google.com/a?utm_source=x"
    "https://maps.google.com/b" "ChIJabc" "42" (some "42")
    (by decide) (by decide)

/-! ### Round trip of the URL parser and serialiser

On well-formed parsed URLs, `parseUrlChars` inverts `serializeUrlChars`.
This backs the C10 argument: re-parsing the normalised URL recovers exactly
the transformed parameter list, in which `cid` has been deleted. -/

/-- Characters allowed in the host of a well-formed parsed URL. -/
def hostOkChar (c : Char) : Bool :=
  !(c = '/') && !(c = ':') && !(c = '?') && !(c = '#')

/-- Characters allowed in the pathname of a well-formed parsed URL. -/
def pathOkChar (c : Char) : Bool :=
  !(c = ':') && !(c = '?') && !(c = '#')

/-- Characters allowed in query keys and values of a well-formed parsed URL. -/
def queryOkChar (c : Char) : Bool :=
  !(c = ':') && !(c = '?') && !(c = '#') && !(c = '&') && !(c = '=')

/-- Well-formedness of a parsed URL: exactly the invariants `parseUrlChars`
guarantees of its output, and what the serialiser needs for the round trip. -/
def ParsedUrl.wf (u : ParsedUrl) : Prop :=
  u.scheme ≠ [] ∧ u.scheme.all isAsciiAlpha = true ∧
  u.host ≠ [] ∧ (∀ c ∈ u.host, hostOkChar c = true) ∧
  (u.pathname = [] ∨ ∃ r, u.pathname = '/' :: r) ∧
  (∀ c ∈ u.pathname, pathOkChar c = true) ∧
  (∀ kv ∈ u.params, kv.1 ≠ [] ∧ (∀ c ∈ kv.1, queryOkChar c = true) ∧
    (∀ c ∈ kv.2, queryOkChar c = true))

lemma splitSchemeSep_append (scheme rest : List Char)
    (h : scheme.all isAsciiAlpha = true) :
    splitSchemeSep (scheme ++ ':' :: '/' :: '/' :: rest) = some (scheme, rest) := by
  induction scheme with
  | nil => simp [splitSchemeSep, startsWithSeq]
  | cons c cs ih =>
    simp only [List.all_cons, Bool.and_eq_true] at h
    have hc : ¬ c = ':' := by
      intro he
      subst he
      exact absurd h.1 (by decide)
    simp [splitSchemeSep, hc, ih h.2]

lemma splitSchemeSep_eq_append {l a b : List Char}
    (h : splitSchemeSep l = some (a, b)) : l = a ++ ':' :: '/' :: '/' :: b := by
  induction l generalizing a with
  | nil => simp [splitSchemeSep] at h
  | cons c rest ih =>
    rw [splitSchemeSep] at h
    by_cases hc : (c = ':' && startsWithSeq ['/', '/'] rest) = true
    · rw [if_pos hc] at h
      simp only [Bool.and_eq_true, decide_eq_true_eq] at hc
      obtain ⟨hc1, hc2⟩ := hc
      subst hc1
      cases rest with
      | nil => simp [startsWithSeq] at hc2
      | cons d rest2 =>
        cases rest2 with
        | nil => simp [startsWithSeq] at hc2
        | cons e rest3 =>
          simp only [startsWithSeq, Bool.and_eq_true, decide_eq_true_eq] at hc2
          obtain ⟨rfl, rfl, -⟩ := hc2
          simp only [Option.some.injEq, Prod.mk.injEq] at h
          obtain ⟨rfl, rfl⟩ := h
          simp
    · rw [if_neg hc] at h
      cases hsp : splitSchemeSep rest with
      | none => rw [hsp] at h; simp at h
      | some pr =>
        rw [hsp] at h
        simp only [Option.map_some', Option.some.injEq, Prod.mk.injEq] at h
        obtain ⟨rfl, rfl⟩ := h
        have := ih (a := pr.1) (by rw [hsp])
        simp [this]

lemma splitOnChar_all_ne (sep : Char) (l : List Char)
    (h : ∀ c ∈ l, ¬ c = sep) : splitOnChar sep l = [l] := by
  induction l with
  | nil => rfl
  | cons c rest ih =>
    have hc : ¬ c = sep := h c (List.mem_cons_self c rest)
    have hr := ih (fun x hx => h x (List.mem_cons_of_mem c hx))
    simp [splitOnChar, hc, hr]

lemma splitOnChar_append_sep (sep : Char) (a b : List Char)
    (h : ∀ c ∈ a, ¬ c = sep) :
    splitOnChar sep (a ++ sep :: b) = a :: splitOnChar sep b := by
  induction a with
  | nil => simp [splitOnChar]
  | cons c rest ih =>
    have hc : ¬ c = sep := h c (List.mem_cons_self c rest)
    have hr := ih (fun x hx => h x (List.mem_cons_of_mem c hx))
    simp only [List.cons_append, splitOnChar, hc, if_false, List.append_eq]
    rw [hr]

lemma splitOnChar_ne_nil (sep : Char) (l : List Char) :
    splitOnChar sep l ≠ [] := by
  cases l with
  | nil => simp [splitOnChar]
  | cons c rest =>
    rw [splitOnChar]
    by_cases hc : c = sep
    · simp [hc]
    · simp only [hc, if_false]
      cases hs : splitOnChar sep rest <;> simp

lemma mem_of_mem_splitOnChar {sep : Char} {l p : List Char} {c : Char}
    (hp : p ∈ splitOnChar sep l) (hc : c ∈ p) : c ∈ l := by
  induction l generalizing p with
  | nil =>
    simp [splitOnChar] at hp
    subst hp
    simp at hc
  | cons d rest ih =>
    rw [splitOnChar] at hp
    by_cases hd : d = sep
    · rw [if_pos hd] at hp
      rcases List.mem_cons.mp hp with rfl | hp2
      · simp at hc
      · exact List.mem_cons_of_mem d (ih hp2 hc)
    · rw [if_neg hd] at hp
      cases hs : splitOnChar sep rest with
      | nil => exact absurd hs (splitOnChar_ne_nil sep rest)
      | cons h0 t0 =>
        rw [hs] at hp
        rcases List.mem_cons.mp hp with rfl | hp2
        · rcases List.mem_cons.mp hc with rfl | hc2
          · exact List.mem_cons_self c rest
          · exact List.mem_cons_of_mem d (ih (by rw [hs]; exact List.mem_cons_self h0 t0) hc2)
        · exact List.mem_cons_of_mem d (ih (by rw [hs]; exact List.mem_cons_of_mem h0 hp2) hc)

lemma sep_not_mem_splitOnChar {sep : Char} {l p : List Char}
    (hp : p ∈ splitOnChar sep l) : sep ∉ p := by
  induction l generalizing p with
  | nil =>
    simp [splitOnChar] at hp
    subst hp
    simp
  | cons d rest ih =>
    rw [splitOnChar] at hp
    by_cases hd : d = sep
    · rw [if_pos hd] at hp
      rcases List.mem_cons.mp hp with rfl | hp2
      · simp
      · exact ih hp2
    · rw [if_neg hd] at hp
      cases hs : splitOnChar sep rest with
      | nil => exact absurd hs (splitOnChar_ne_nil sep rest)
      | cons h0 t0 =>
        rw [hs] at hp
        rcases List.mem_cons.mp hp with rfl | hp2
        · intro hmem
          rcases List.mem_cons.mp hmem with rfl | hm2
          · exact hd rfl
          · exact ih (by rw [hs]; exact List.mem_cons_self h0 t0) hm2
        · exact ih (by rw [hs]; exact List.mem_cons_of_mem h0 hp2)

lemma takeWhile_dropWhile_split (a b : List Char)
    (ha : ∀ c ∈ a, ¬ c = '/') (hb : b = [] ∨ ∃ r, b = '/' :: r) :
    (a ++ b).takeWhile (· ≠ '/') = a ∧ (a ++ b).dropWhile (· ≠ '/') = b := by
  induction a with
  | nil =>
    rcases hb with rfl | ⟨r, rfl⟩
    · simp
    · simp [List.takeWhile_cons, List.dropWhile_cons]
  | cons c rest ih =>
    have hc : ¬ c = '/' := ha c (List.mem_cons_self c rest)
    have h9 := ih (fun x hx => ha x (List.mem_cons_of_mem c hx))
    simp only [decide_not] at h9
    simp [List.takeWhile_cons, List.dropWhile_cons, hc, h9.1, h9.2]

lemma alpha_ne (c : Char) (h : isAsciiAlpha c = true) :
    ¬ c = ':' ∧ ¬ c = '#' ∧ ¬ c = '?' ∧ ¬ c = '/' := by
  refine ⟨?_, ?_, ?_, ?_⟩ <;> (intro he; subst he; revert h; decide)

lemma hostOk_ne (c : Char) (h : hostOkChar c = true) :
    ¬ c = '/' ∧ ¬ c = ':' ∧ ¬ c = '?' ∧ ¬ c = '#' := by
  simp only [hostOkChar, Bool.and_eq_true, Bool.not_eq_true',
    decide_eq_false_iff_not] at h
  tauto

lemma pathOk_ne (c : Char) (h : pathOkChar c = true) :
    ¬ c = ':' ∧ ¬ c = '?' ∧ ¬ c = '#' := by
  simp only [pathOkChar, Bool.and_eq_true, Bool.not_eq_true',
    decide_eq_false_iff_not] at h
  tauto

lemma queryOk_ne (c : Char) (h : queryOkChar c = true) :
    ¬ c = ':' ∧ ¬ c = '?' ∧ ¬ c = '#' ∧ ¬ c = '&' ∧ ¬ c = '=' := by
  simp only [queryOkChar, Bool.and_eq_true, Bool.not_eq_true',
    decide_eq_false_iff_not] at h
  tauto

lemma mem_serializeQuery {ps : List (List Char × List Char)} {c : Char}
    (h : c ∈ serializeQuery ps) :
    c = '=' ∨ c = '&' ∨ ∃ kv ∈ ps, c ∈ kv.1 ∨ c ∈ kv.2 := by
  induction ps with
  | nil => simp [serializeQuery] at h
  | cons kv rest ih =>
    cases rest with
    | nil =>
      simp only [serializeQuery] at h
      rcases List.mem_append.mp h with h1 | h2
      · exact Or.inr (Or.inr ⟨kv, by simp, Or.inl h1⟩)
      · rcases List.mem_cons.mp h2 with rfl | h3
        · exact Or.inl rfl
        · exact Or.inr (Or.inr ⟨kv, by simp, Or.inr h3⟩)
    | cons kv2 rest2 =>
      simp only [serializeQuery] at h
      rcases List.mem_append.mp h with h1 | h2
      · rcases List.mem_append.mp h1 with h3 | h4
        · exact Or.inr (Or.inr ⟨kv, by simp, Or.inl h3⟩)
        · rcases List.mem_cons.mp h4 with rfl | h5
          · exact Or.inl rfl
          · exact Or.inr (Or.inr ⟨kv, by simp, Or.inr h5⟩)
      · rcases List.mem_cons.mp h2 with rfl | h6
        · exact Or.inr (Or.inl rfl)
        · rcases ih h6 with h7 | h7 | ⟨kv3, hkv3, h7⟩
          · exact Or.inl h7
          · exact Or.inr (Or.inl h7)
          · exact Or.inr (Or.inr ⟨kv3, List.mem_cons_of_mem kv hkv3, h7⟩)

lemma parseQueryPair_roundtrip (k v : List Char) (hk : k ≠ [])
    (hkq : ∀ c ∈ k, ¬ c = '=') (hvq : ∀ c ∈ v, ¬ c = '=') :
    parseQueryPair (k ++ '=' :: v) = some (k, v) := by
  unfold parseQueryPair
  rw [splitOnChar_append_sep '=' k v hkq, splitOnChar_all_ne '=' v hvq]
  simp [hk]

lemma parseQueryPairs_roundtrip (ps : List (List Char × List Char))
    (hps : ps ≠ [])
    (hwf : ∀ kv ∈ ps, kv.1 ≠ [] ∧ (∀ c ∈ kv.1, queryOkChar c = true) ∧
      (∀ c ∈ kv.2, queryOkChar c = true)) :
    parseQueryPairs (serializeQuery ps) = some ps := by
  induction ps with
  | nil => exact absurd rfl hps
  | cons kv rest ih =>
    obtain ⟨hk, hkq, hvq⟩ := hwf kv (List.mem_cons_self kv rest)
    have hkeq : ∀ c ∈ kv.1, ¬ c = '=' := fun c hc => (queryOk_ne c (hkq c hc)).2.2.2.2
    have hveq : ∀ c ∈ kv.2, ¬ c = '=' := fun c hc => (queryOk_ne c (hvq c hc)).2.2.2.2
    have hkamp : ∀ c ∈ kv.1, ¬ c = '&' := fun c hc => (queryOk_ne c (hkq c hc)).2.2.2.1
    have hvamp : ∀ c ∈ kv.2, ¬ c = '&' := fun c hc => (queryOk_ne c (hvq c hc)).2.2.2.1
    have hpairAmp : ∀ c ∈ kv.1 ++ '=' :: kv.2, ¬ c = '&' := by
      intro c hc
      rcases List.mem_append.mp hc with h1 | h2
      · exact hkamp c h1
      · rcases List.mem_cons.mp h2 with rfl | h3
        · decide
        · exact hvamp c h3
    cases rest with
    | nil =>
      show parseQueryPairs (kv.1 ++ '=' :: kv.2) = some [kv]
      unfold parseQueryPairs
      rw [splitOnChar_all_ne '&' _ hpairAmp]
      simp [parseQueryList, parseQueryPair_roundtrip kv.1 kv.2 hk hkeq hveq]
    | cons kv2 rest2 =>
      have hrest := ih (by simp)
        (fun x hx => hwf x (List.mem_cons_of_mem kv hx))
      show parseQueryPairs
        (kv.1 ++ '=' :: kv.2 ++ '&' :: serializeQuery (kv2 :: rest2))
          = some (kv :: kv2 :: rest2)
      unfold parseQueryPairs
      rw [splitOnChar_append_sep '&' _ _ hpairAmp]
      unfold parseQueryPairs at hrest
      simp [parseQueryList, parseQueryPair_roundtrip kv.1 kv.2 hk hkeq hveq,
        hrest]

/-- The round trip: parsing the serialisation of a well-formed parsed URL
recovers it exactly. -/
lemma parse_serialize_roundtrip (u : ParsedUrl) (h : u.wf) :
    parseUrlChars (serializeUrlChars u) = some u := by
  obtain ⟨sch, host, path, params⟩ := u
  obtain ⟨h1, h2, h3, h4, h5, h6, h7⟩ := h
  simp only at h1 h2 h3 h4 h5 h6 h7
  have hsch : ∀ c ∈ sch, isAsciiAlpha c = true :=
    fun c hc => List.all_eq_true.mp h2 c hc
  have hhostSlash : ∀ c ∈ host, ¬ c = '/' :=
    fun c hc => (hostOk_ne c (h4 c hc)).1
  have hnoq : ∀ c ∈ host ++ path, ¬ c = '?' := by
    intro c hc
    rcases List.mem_append.mp hc with hc1 | hc2
    · exact (hostOk_ne c (h4 c hc1)).2.2.1
    · exact (pathOk_ne c (h6 c hc2)).2.1
  obtain ⟨htw, hdw⟩ := takeWhile_dropWhile_split host path hhostSlash h5
  cases params with
  | nil =>
    have hrest : ∀ c ∈ host ++ path, ¬ c = ':' ∧ ¬ c = '#' := by
      intro c hc
      rcases List.mem_append.mp hc with hc1 | hc2
      · have := hostOk_ne c (h4 c hc1)
        tauto
      · have := pathOk_ne c (h6 c hc2)
        tauto
    have hhash : (sch ++ ':' :: '/' :: '/' :: (host ++ path)).any
        (fun c => c = '#') = false := by
      rw [List.any_eq_false]
      intro c hc
      simp only [decide_eq_true_eq]
      rcases List.mem_append.mp hc with hc1 | hc2
      · exact (alpha_ne c (hsch c hc1)).2.1
      · rcases List.mem_cons.mp hc2 with rfl | hc3
        · decide
        · rcases List.mem_cons.mp hc3 with rfl | hc4
          · decide
          · rcases List.mem_cons.mp hc4 with rfl | hc5
            · decide
            · exact (hrest c hc5).2
    have hcolon : (host ++ path).any (fun c => c = ':') = false := by
      rw [List.any_eq_false]
      intro c hc
      simp only [decide_eq_true_eq]
      exact (hrest c hc).1
    show parseUrlChars (sch ++ ':' :: '/' :: '/' :: (host ++ (path ++ []))) = _
    simp only [parseUrlChars, hhash, Bool.false_eq_true, if_false,
      splitSchemeSep_append sch _ h2, h1, h2, hcolon, List.append_nil,
      splitOnChar_all_ne '?' (host ++ path) hnoq, htw, hdw, if_neg h3,
      Bool.not_true, if_false]
  | cons kv rest =>
    have hq : ∀ c ∈ serializeQuery (kv :: rest), ¬ c = ':' ∧ ¬ c = '#' ∧ ¬ c = '?' := by
      intro c hc
      rcases mem_serializeQuery hc with rfl | rfl | ⟨kv2, hkv2, hm⟩
      · exact ⟨by decide, by decide, by decide⟩
      · exact ⟨by decide, by decide, by decide⟩
      · obtain ⟨-, hk, hv⟩ := h7 kv2 hkv2
        rcases hm with hm | hm
        · have := queryOk_ne c (hk c hm)
          tauto
        · have := queryOk_ne c (hv c hm)
          tauto
    have hrest : ∀ c ∈ host ++ (path ++ '?' :: serializeQuery (kv :: rest)),
        ¬ c = ':' ∧ ¬ c = '#' := by
      intro c hc
      rcases List.mem_append.mp hc with hc1 | hc2
      · have := hostOk_ne c (h4 c hc1)
        tauto
      · rcases List.mem_append.mp hc2 with hc3 | hc4
        · have := pathOk_ne c (h6 c hc3)
          tauto
        · rcases List.mem_cons.mp hc4 with rfl | hc5
          · exact ⟨by decide, by decide⟩
          · have := hq c hc5
            tauto
    have hhash : (sch ++ ':' :: '/' :: '/' ::
        (host ++ (path ++ '?' :: serializeQuery (kv :: rest)))).any
        (fun c => c = '#') = false := by
      rw [List.any_eq_false]
      intro c hc
      simp only [decide_eq_true_eq]
      rcases List.mem_append.mp hc with hc1 | hc2
      · exact (alpha_ne c (hsch c hc1)).2.1
      · rcases List.mem_cons.mp hc2 with rfl | hc3
        · decide
        · rcases List.mem_cons.mp hc3 with rfl | hc4
          · decide
          · rcases List.mem_cons.mp hc4 with rfl | hc5
            · decide
            · exact (hrest c hc5).2
    have hcolon : (host ++ (path ++ '?' :: serializeQuery (kv :: rest))).any
        (fun c => c = ':') = false := by
      rw [List.any_eq_false]
      intro c hc
      simp only [decide_eq_true_eq]
      exact (hrest c hc).1
    have hassoc : host ++ (path ++ '?' :: serializeQuery (kv :: rest))
        = (host ++ path) ++ '?' :: serializeQuery (kv :: rest) := by
      rw [List.append_assoc]
    have hsplitq : splitOnChar '?' (host ++ (path ++ '?' :: serializeQuery (kv :: rest)))
        = [host ++ path, serializeQuery (kv :: rest)] := by
      rw [hassoc, splitOnChar_append_sep '?' _ _ hnoq,
        splitOnChar_all_ne '?' _ (fun c hc => (hq c hc).2.2)]
    show parseUrlChars (sch ++ ':' :: '/' :: '/' ::
      (host ++ (path ++ '?' :: serializeQuery (kv :: rest)))) = _
    simp only [parseUrlChars, hhash, Bool.false_eq_true, if_false,
      splitSchemeSep_append sch _ h2, h1, h2, hcolon, hsplitq,
      parseQueryPairs_roundtrip (kv :: rest) (by simp) h7, htw, hdw,
      if_neg h3, Bool.not_true, if_false]

lemma dropWhile_shape (p : Char → Bool) (l : List Char) :
    l.dropWhile p = [] ∨ ∃ c r, l.dropWhile p = c :: r ∧ p c = false := by
  induction l with
  | nil => left; rfl
  | cons a t ih =>
    rw [List.dropWhile_cons]
    by_cases ha : p a = true
    · simpa [ha] using ih
    · right
      exact ⟨a, t, by simp [ha], by simpa using ha⟩

lemma parseQueryPair_inv {p : List Char} {kv : List Char × List Char}
    (h : parseQueryPair p = some kv) :
    kv.1 ≠ [] ∧ splitOnChar '=' p = [kv.1, kv.2] := by
  unfold parseQueryPair at h
  split at h
  next k v heq =>
    split at h
    next => simp at h
    next hk =>
      simp only [Option.some.injEq] at h
      subst h
      exact ⟨hk, heq⟩
  next => simp at h

lemma parseQueryList_inv {pieces : List (List Char)}
    {ps : List (List Char × List Char)}
    (h : parseQueryList pieces = some ps) :
    ∀ kv ∈ ps, ∃ p ∈ pieces, parseQueryPair p = some kv := by
  induction pieces generalizing ps with
  | nil =>
    simp only [parseQueryList, Option.some.injEq] at h
    subst h
    simp
  | cons p rest ih =>
    unfold parseQueryList at h
    split at h
    next kv0 kvs heq1 heq2 =>
      simp only [Option.some.injEq] at h
      subst h
      intro kv hkv
      rcases List.mem_cons.mp hkv with rfl | hkv2
      · exact ⟨p, List.mem_cons_self p rest, heq1⟩
      · obtain ⟨p2, hp2, hpq⟩ := ih heq2 kv hkv2
        exact ⟨p2, List.mem_cons_of_mem p hp2, hpq⟩
    next => simp at h

/-- Everything `parseUrlChars` accepts is well-formed. -/
lemma parseUrlChars_wf {l : List Char} {u : ParsedUrl}
    (h : parseUrlChars l = some u) : u.wf := by
  unfold parseUrlChars at h
  split at h
  · simp at h
  next hhash =>
    cases hsp : splitSchemeSep l with
    | none => rw [hsp] at h; simp at h
    | some pr =>
      obtain ⟨scheme, rest⟩ := pr
      rw [hsp] at h
      have hl := splitSchemeSep_eq_append hsp
      have hhashf : (l.any fun c => decide (c = '#')) = false := by
        revert hhash
        cases l.any fun c => decide (c = '#') <;> simp
      have hhash2 : ∀ c ∈ l, ¬ c = '#' := by
        rw [List.any_eq_false] at hhashf
        intro c hc
        simpa using hhashf c hc
      simp only at h
      split at h
      · simp at h
      next hs1 =>
        split at h
        · simp at h
        next hs2 =>
          split at h
          · simp at h
          next hs3 =>
            have halpha : scheme.all isAsciiAlpha = true := by
              revert hs2
              cases scheme.all isAsciiAlpha <;> simp
            have hcolon : ∀ c ∈ rest, ¬ c = ':' := by
              have : rest.any (fun c => c = ':') = false := by
                revert hs3
                cases rest.any (fun c => c = ':') <;> simp
              rw [List.any_eq_false] at this
              intro c hc
              simpa using this c hc
            have hrestl : ∀ c ∈ rest, c ∈ l := by
              intro c hc
              rw [hl]
              exact List.mem_append.mpr (Or.inr (by simp [hc]))
            -- the host/path extraction facts, shared by both query branches
            have hostPathFacts : ∀ hostPath ∈ splitOnChar '?' rest,
                (∀ c ∈ hostPath.takeWhile (· ≠ '/'),
                  hostOkChar c = true) ∧
                (∀ c ∈ hostPath.dropWhile (· ≠ '/'),
                  pathOkChar c = true) ∧
                (hostPath.dropWhile (· ≠ '/') = [] ∨
                  ∃ r, hostPath.dropWhile (· ≠ '/') = '/' :: r) := by
              intro hostPath hmem
              have hsubq : ∀ c ∈ hostPath, c ∈ rest :=
                fun c hc => mem_of_mem_splitOnChar hmem hc
              have hnoqm : '?' ∉ hostPath := sep_not_mem_splitOnChar hmem
              refine ⟨?_, ?_, ?_⟩
              · intro c hc
                have hcp : c ∈ hostPath :=
                  (List.takeWhile_sublist _).subset hc
                have hcs :=
                  List.mem_takeWhile_imp (p := fun x => decide (x ≠ '/')) hc
                have hslash : ¬ c = '/' := by simpa using hcs
                have hne : ¬ c = '?' := fun he => hnoqm (he ▸ hcp)
                simp [hostOkChar, hslash, hcolon c (hsubq c hcp), hne,
                  hhash2 c (hrestl c (hsubq c hcp))]
              · intro c hc
                have hcp : c ∈ hostPath :=
                  (List.dropWhile_sublist _).subset hc
                have hne : ¬ c = '?' := fun he => hnoqm (he ▸ hcp)
                simp [pathOkChar, hcolon c (hsubq c hcp), hne,
                  hhash2 c (hrestl c (hsubq c hcp))]
              · rcases dropWhile_shape (· ≠ '/') hostPath with h0 | ⟨c, r, h0, hpc⟩
                · exact Or.inl h0
                · right
                  have : c = '/' := by simpa using hpc
                  exact ⟨r, this ▸ h0⟩
            split at h
            next hostPath heq =>
              split at h
              · simp at h
              next hhost =>
                simp only [Option.some.injEq] at h
                subst h
                have hmem : hostPath ∈ splitOnChar '?' rest := by
                  rw [heq]; simp
                obtain ⟨hh, hp, hshape⟩ := hostPathFacts hostPath hmem
                exact ⟨hs1, halpha, hhost, hh, hshape, hp, by simp⟩
            next hostPath query heq =>
              split at h
              · simp at h
              next ps hps =>
                split at h
                · simp at h
                next hhost =>
                  simp only [Option.some.injEq] at h
                  subst h
                  have hmem : hostPath ∈ splitOnChar '?' rest := by
                    rw [heq]; simp
                  have hqmem : query ∈ splitOnChar '?' rest := by
                    rw [heq]; simp
                  obtain ⟨hh, hp, hshape⟩ := hostPathFacts hostPath hmem
                  refine ⟨hs1, halpha, hhost, hh, hshape, hp, ?_⟩
                  intro kv hkv
                  obtain ⟨piece, hpiece, hpair⟩ :=
                    parseQueryList_inv hps kv hkv
                  obtain ⟨hk1, hsplit⟩ := parseQueryPair_inv hpair
                  have hpieceq : ∀ c ∈ piece, c ∈ query :=
                    fun c hc => mem_of_mem_splitOnChar hpiece hc
                  have hampm : '&' ∉ piece := sep_not_mem_splitOnChar hpiece
                  have hql : ∀ c ∈ query, c ∈ rest :=
                    fun c hc => mem_of_mem_splitOnChar hqmem hc
                  have hqq : '?' ∉ query := sep_not_mem_splitOnChar hqmem
                  have hcharOk : ∀ c ∈ piece, ('=' ∉ ([c] : List Char) → True) →
                      True := fun _ _ _ => trivial
                  have hpieceOk : ∀ part ∈ splitOnChar '=' piece,
                      ∀ c ∈ part, queryOkChar c = true := by
                    intro part hpart c hc
                    have hcpiece : c ∈ piece :=
                      mem_of_mem_splitOnChar hpart hc
                    have heqm : '=' ∉ part := sep_not_mem_splitOnChar hpart
                    have h1c : ¬ c = '=' := fun he => heqm (he ▸ hc)
                    have h2c : ¬ c = '&' := fun he => hampm (he ▸ hcpiece)
                    have h3c : ¬ c = '?' :=
                      fun he => hqq (he ▸ hpieceq c hcpiece)
                    have h4c : ¬ c = ':' := hcolon c (hql c (hpieceq c hcpiece))
                    have h5c : ¬ c = '#' :=
                      hhash2 c (hrestl c (hql c (hpieceq c hcpiece)))
                    simp [queryOkChar, h1c, h2c, h3c, h4c, h5c]
                  have hkmem : kv.1 ∈ splitOnChar '=' piece := by
                    rw [hsplit]; simp
                  have hvmem : kv.2 ∈ splitOnChar '=' piece := by
                    rw [hsplit]; simp
                  exact ⟨hk1, hpieceOk kv.1 hkmem, hpieceOk kv.2 hvmem⟩
            next => simp at h

/-! ## Check orchestrator: `src/services/session.ts`

`BusinessService` composes the record store (SQLite), the Playwright
extractor, and the Sheets/Drive collaborators.  The record store is a
`List Business`; each collaborator call is an explicit `Except String`
outcome supplied by an environment record; the clock is modelled as one
`today`/`now` pair per invocation (the code calls `getDublinDate()` /
`new Date()` a few times during one run; the model takes them constant
within the run). -/

/-- One row of the `businesses` table. -/
structure Business where
  id : Nat
  canonicalBusinessKey : String
  placeId : Option String
  cid : Option String
  url : Option String
  name : Option String
  spreadsheetId : Option String
  folderId : Option String
  lastCheckedDate : Option String
  lastCheckedAt : Option String
deriving DecidableEq, Repr

/-- `BusinessService.createSnapshot`: assemble the `Snapshot` from an
extraction result, computing `activity` (the `EXTRACTION_FAILED` marker wins,
otherwise diff against the baseline when one exists). -/
def createSnapshot (today now : String) (_url : String)
    (extracted : ExtractedData) (baseline : Option Snapshot) : Snapshot :=
  let activity :=
    if extracted.errorCode = some ErrorCode.EXTRACTION_FAILED then
      "EXTRACTION_FAILED"
    else
      match baseline with
      | some _ =>
        detectChanges baseline
          { date := today, checkedAt := now, link := extracted.link,
            name := extracted.name, address := extracted.address,
            webpage := extracted.webpage, phone := extracted.phone,
            openClosedStatus := extracted.openClosedStatus,
            reviewCount := extracted.reviewCount,
            starRating := extracted.starRating, activity := "",
            errorCode := extracted.errorCode, screenshotLink := none }
      | none => ""
  { date := today, checkedAt := now, link := extracted.link,
    name := extracted.name, address := extracted.address,
    webpage := extracted.webpage, phone := extracted.phone,
    openClosedStatus := extracted.openClosedStatus,
    reviewCount := extracted.reviewCount, starRating := extracted.starRating,
    activity := activity, errorCode := extracted.errorCode,
    screenshotLink := none }

/-- Collaborator outcomes for one `createBusiness` invocation. -/
structure OnboardEnv where
  loggedIn : Bool
  extract : ExtractedData
  driveAuthenticated : Bool
  mainFolder : Except String String
  businessFolder : Except String String
  screenshotsFolder : Except String Unit
  createSheet : Except String String
  appendResult : Except String Unit
  today : String
  now : String

/-- Update the row with the given id (a keyed `UPDATE businesses SET ...`). -/
def updateBusiness (db : List Business) (id : Nat) (f : Business → Business) :
    List Business :=
  db.map (fun b => if b.id = id then f b else b)

/-- The Drive/Sheets provisioning `try` block of `createBusiness`: when the
cloud side is authenticated, create the main folder, business folder,
screenshots folder and spreadsheet, and record the two ids on the new row;
any failure is caught and onboarding continues without artifacts.  Returns
`(folderId, spreadsheetId, store)`. -/
def provisionArtifacts (env : OnboardEnv) (db1 : List Business)
    (nextId : Nat) : Option String × Option String × List Business :=
  if env.driveAuthenticated then
    match (do
      let _ ← env.mainFolder
      let fid ← env.businessFolder
      let _ ← env.screenshotsFolder
      let sid ← env.createSheet
      pure (fid, sid) : Except String (String × String)) with
    | Except.ok (fid, sid) =>
      (some fid, some sid,
        updateBusiness db1 nextId (fun b =>
          { b with spreadsheetId := some sid, folderId := some fid }))
    | Except.error _ => (none, none, db1)
  else (none, none, db1)

/-- The tail of `createBusiness` after the duplicate and login checks:
insert the row, run the provisioning `try` block, and if a spreadsheet
exists append the first snapshot (an append throw propagates) and stamp
`lastCheckedDate`/`lastCheckedAt`. -/
def insertAndProvision (env : OnboardEnv) (db : List Business)
    (newBiz : Business) : Except String (Nat × String) × List Business :=
  match provisionArtifacts env (db ++ [newBiz]) newBiz.id with
  | (_, some _sid, db2) =>
    match env.appendResult with
    | Except.error e => (Except.error e, db2)
    | Except.ok _ =>
      (Except.ok (newBiz.id, newBiz.canonicalBusinessKey),
        updateBusiness db2 newBiz.id (fun b =>
          { b with lastCheckedDate := some env.today, lastCheckedAt := some env.now }))
  | (_, none, db2) => (Except.ok (newBiz.id, newBiz.canonicalBusinessKey), db2)

/-- `BusinessService.createBusiness`: validate and normalise the URL
(`INVALID_URL` on a parse failure), derive identifiers and the canonical
key, return the existing row on a canonical-key hit, reject duplicate
`placeId`/`cid`, require login, insert the row, best-effort provision the
Drive folder and spreadsheet (failures caught), and append the first
snapshot when a spreadsheet exists (an append failure propagates).
Returns the call outcome paired with the record-store state. -/
def createBusiness (db : List Business) (nextId : Nat) (url : String)
    (env : OnboardEnv) : Except String (Nat × String) × List Business :=
  let normalizedUrl := normalizeGoogleMapsUrl url
  if (parseUrlChars normalizedUrl.data).isNone then
    (Except.error "INVALID_URL", db)
  else
    let placeId := extractPlaceId normalizedUrl
    let cid := extractCid normalizedUrl
    let canonicalBusinessKey :=
      deriveCanonicalBusinessKey normalizedUrl placeId cid
    match db.find? (fun b => b.canonicalBusinessKey == canonicalBusinessKey) with
    | some existing => (Except.ok (existing.id, canonicalBusinessKey), db)
    | none =>
      if jsTruthy placeId && (db.find? (fun b => b.placeId == placeId)).isSome then
        (Except.error "Duplicate placeId", db)
      else if jsTruthy cid && (db.find? (fun b => b.cid == cid)).isSome then
        (Except.error "Duplicate cid", db)
      else if !env.loggedIn then
        (Except.error "NOT_LOGGED_IN", db)
      else
        insertAndProvision env db
          ⟨nextId, canonicalBusinessKey, placeId, cid, some normalizedUrl,
            env.extract.name, none, none, none, none⟩

/-- Collaborator outcomes for one `runCheck` invocation. -/
structure CheckEnv where
  today : String
  now : String
  loggedIn : Bool
  sheetsAuthenticated : Bool
  extract : ExtractedData
  baselineResult : Except String (Option Snapshot)
  mainFolder : Except String String
  newBusinessFolder : Except String String
  screenshotsFolder : Except String Unit
  findSheet : Except String (Option String)
  createSheet : Except String String
  verifySheet : Except String Bool
  screenshotLink : Option String
  appendResult : Except String Unit

/-- The folder/spreadsheet (re)provisioning block in the middle of
`runCheck`.  When either artifact id is missing (falsy), a `try` block
creates what is absent and records the ids — its failures are caught and the
original row is kept; otherwise the spreadsheet is verified to still exist
(a missing one clears `spreadsheetId` and the check continues, to fail at
the append step), and the screenshots folder is ensured (these two calls are
outside the `try`, so their failures propagate). -/
def ensureArtifacts (env : CheckEnv) (b : Business) : Except String Business :=
  if !(jsTruthy b.folderId) || !(jsTruthy b.spreadsheetId) then
    match (do
      let _ ← env.mainFolder
      let fid ← (match b.folderId with
        | some f => if f = "" then env.newBusinessFolder else pure f
        | none => env.newBusinessFolder)
      let _ ← env.screenshotsFolder
      let sid ← (match b.spreadsheetId with
        | some s =>
          if s = "" then
            (do
              let found ← env.findSheet
              match found with
              | some ex => if ex = "" then env.createSheet else pure ex
              | none => env.createSheet)
          else pure s
        | none =>
          (do
            let found ← env.findSheet
            match found with
            | some ex => if ex = "" then env.createSheet else pure ex
            | none => env.createSheet))
      pure (fid, sid) : Except String (String × String)) with
    | Except.ok (fid, sid) =>
      Except.ok { b with folderId := some fid, spreadsheetId := some sid }
    | Except.error _ => Except.ok b
  else
    match env.verifySheet with
    | Except.error e => Except.error e
    | Except.ok exists2 =>
      if exists2 then
        match env.screenshotsFolder with
        | Except.error e => Except.error e
        | Except.ok _ => Except.ok b
      else
        Except.ok { b with spreadsheetId := none }

/-- What one `runCheck` invocation did: its outcome (`Except.error` = the
method threw), the row appended to the ledger if any, whether extraction ran,
and the final state of the business row. -/
structure RunCheckResult where
  outcome : Except String Unit
  appended : Option Snapshot
  didExtract : Bool
  business : Business
deriving Repr

/-- `BusinessService.runCheck`: the daily gate (skip when `lastCheckedDate`
equals today's Dublin date, unless forced), the login and Sheets-auth
checks, extraction, baseline fetch, artifact provisioning, snapshot
assembly, best-effort screenshot (failures swallowed — the env supplies the
resulting link or `none`; it is attempted only with a truthy folder id and
no extraction error), the append (`SHEETS_WRITE_FAILED` on a missing
spreadsheet id or an append throw), and finally the
`lastCheckedDate`/`lastCheckedAt` update. -/
def runCheck (env : CheckEnv) (b : Business) (force : Bool) : RunCheckResult :=
  if !force && b.lastCheckedDate == some env.today then
    ⟨Except.ok (), none, false, b⟩
  else if !env.loggedIn then
    ⟨Except.error "NOT_LOGGED_IN", none, false, b⟩
  else if !env.sheetsAuthenticated then
    ⟨Except.error "SHEETS_AUTH_REQUIRED", none, false, b⟩
  else if !(jsTruthy b.url) then
    ⟨Except.error "INVALID_URL", none, false, b⟩
  else
    let url := b.url.getD ""
    let extracted := env.extract
    match (if jsTruthy b.spreadsheetId then env.baselineResult
           else Except.ok none) with
    | Except.error e => ⟨Except.error e, none, true, b⟩
    | Except.ok baseline =>
      match ensureArtifacts env b with
      | Except.error e => ⟨Except.error e, none, true, b⟩
      | Except.ok b1 =>
        let snapshot := createSnapshot env.today env.now url extracted baseline
        let link :=
          if jsTruthy b1.folderId = true ∧ extracted.errorCode = none then
            env.screenshotLink
          else none
        let snapshot := { snapshot with screenshotLink := link }
        if !(jsTruthy b1.spreadsheetId) then
          ⟨Except.error "SHEETS_WRITE_FAILED: No spreadsheet ID available for business",
            none, true, b1⟩
        else
          match env.appendResult with
          | Except.error e =>
            ⟨Except.error ("SHEETS_WRITE_FAILED: " ++ e), none, true, b1⟩
          | Except.ok _ =>
            ⟨Except.ok (), some snapshot, true,
              { b1 with lastCheckedDate := some env.today, lastCheckedAt := some env.now }⟩

/-- **C2**: the daily gate.  (1) A non-forced `runCheck` on an entity whose
stored `lastCheckedDate` equals today's Dublin date returns immediately:
nothing extracted, nothing appended, the row unchanged.  (2) Every
successful check (one that appended an observation) leaves
`lastCheckedDate = today`.  (3) Hence a second non-forced call on the same
Dublin civil day is a no-op, so at most one successful non-forced check
happens per entity per day. -/
theorem runCheck_daily_gate (env env2 : CheckEnv) (b : Business) (force : Bool)
    (hgate : b.lastCheckedDate = some env.today)
    (hsucc : (runCheck env2 b force).appended.isSome = true)
    (hday : env2.today = env.today) :
    (runCheck env b false = ⟨Except.ok (), none, false, b⟩)
    ∧ ((runCheck env2 b force).business.lastCheckedDate = some env2.today)
    ∧ (runCheck env (runCheck env2 b force).business false
        = ⟨Except.ok (), none, false, (runCheck env2 b force).business⟩) := by
  have key : ∀ (e : CheckEnv) (bb : Business) (f : Bool),
      (runCheck e bb f).appended.isSome = true →
      (runCheck e bb f).business.lastCheckedDate = some e.today := by
    intro e bb f
    simp only [runCheck]
    repeat' split
    all_goals simp
  refine ⟨?_, key env2 b force hsucc, ?_⟩
  · simp [runCheck, hgate]
  · have h2 := key env2 b force hsucc
    rw [hday] at h2
    generalize hb2 : (runCheck env2 b force).business = b2 at h2 ⊢
    simp [runCheck, h2]

/-- A concrete successful-check environment for the C2 witness. -/
def envC2 : CheckEnv :=
  { today := "2026-02-03", now := "2026-02-03T09:00:00.000Z",
    loggedIn := true, sheetsAuthenticated := true,
    extract :=
      { link := some "https://maps.google.com/maps/place/Cafe",
        name := some "Cafe", address := some "1 Main St",
        webpage := some "cafe.ie", phone := some "0123456789",
        openClosedStatus := OpenClosedStatus.OPEN, reviewCount := some 12,
        starRating := some (9 / 2 : ℚ), errorCode := none },
    baselineResult := Except.ok none, mainFolder := Except.ok "main",
    newBusinessFolder := Except.ok "folder",
    screenshotsFolder := Except.ok (), findSheet := Except.ok none,
    createSheet := Except.ok "sheet", verifySheet := Except.ok true,
    screenshotLink := some "https://drive.google.com/shot.png",
    appendResult := Except.ok () }

/-- A concrete business row, already checked today, for the C2 witness. -/
def bC2 : Business :=
  { id := 1, canonicalBusinessKey := "place_id:ChIJabc",
    placeId := some "ChIJabc", cid := none,
    url := some "https://maps.google.com/maps/place/Cafe",
    name := some "Cafe", spreadsheetId := some "sheet",
    folderId := some "folder", lastCheckedDate := some "2026-02-03",
    lastCheckedAt := some "2026-02-03T08:00:00.000Z" }

/-- Witness for `runCheck_daily_gate`: on `bC2` (already checked today) a
non-forced check is a silent no-op; a forced check succeeds and re-stamps
today's date; a following non-forced check is again a no-op. -/
theorem runCheck_daily_gate_witness :
    bC2.lastCheckedDate = some envC2.today
    ∧ (runCheck envC2 bC2 true).appended.isSome = true
    ∧ ((runCheck envC2 bC2 false = ⟨Except.ok (), none, false, bC2⟩)
      ∧ ((runCheck envC2 bC2 true).business.lastCheckedDate = some envC2.today)
      ∧ (runCheck envC2 (runCheck envC2 bC2 true).business false
          = ⟨Except.ok (), none, false, (runCheck envC2 bC2 true).business⟩)) :=
  ⟨rfl, rfl, runCheck_daily_gate envC2 envC2 bC2 true rfl rfl rfl⟩

/-- The provisioning block never touches the `lastChecked` fields: whenever
its two non-`try` collaborator calls succeed, it returns a row that differs
from the input at most in `folderId`/`spreadsheetId`. -/
lemma ensureArtifacts_preserves_lastChecked (env : CheckEnv) (b : Business)
    (hverify : ∃ v, env.verifySheet = Except.ok v)
    (hshots : env.screenshotsFolder = Except.ok ()) :
    ∃ b1, ensureArtifacts env b = Except.ok b1
      ∧ b1.lastCheckedDate = b.lastCheckedDate
      ∧ b1.lastCheckedAt = b.lastCheckedAt := by
  obtain ⟨v, hv⟩ := hverify
  unfold ensureArtifacts
  split
  · split
    · exact ⟨_, rfl, rfl, rfl⟩
    · exact ⟨b, rfl, rfl, rfl⟩
  · rw [hv]
    cases v with
    | true =>
      simp only [if_true]
      rw [hshots]
      exact ⟨b, rfl, rfl, rfl⟩
    | false =>
      exact ⟨_, rfl, rfl, rfl⟩

/-- **C3**: when the check reaches the append stage and appending fails —
either the append collaborator throws, or no spreadsheet id is available
(here: the row had none and provisioning failed) — `runCheck` raises an
error prefixed `SHEETS_WRITE_FAILED`, appends nothing, and leaves
`lastCheckedDate`/`lastCheckedAt` exactly as they were, so the failed check
does not consume the daily gate. -/
theorem runCheck_append_failure (env : CheckEnv) (b : Business) (force : Bool)
    (hgate : (!force && (b.lastCheckedDate == some env.today)) = false)
    (hlog : env.loggedIn = true)
    (hsheets : env.sheetsAuthenticated = true)
    (hurl : jsTruthy b.url = true)
    (hbase : ∃ bl, env.baselineResult = Except.ok bl)
    (hverify : ∃ v, env.verifySheet = Except.ok v)
    (hshots : env.screenshotsFolder = Except.ok ()) :
    (∀ m, env.appendResult = Except.error m →
      (∃ rest, (runCheck env b force).outcome
        = Except.error ("SHEETS_WRITE_FAILED" ++ rest))
      ∧ (runCheck env b force).appended = none
      ∧ (runCheck env b force).business.lastCheckedDate = b.lastCheckedDate
      ∧ (runCheck env b force).business.lastCheckedAt = b.lastCheckedAt)
    ∧ (∀ e, jsTruthy b.spreadsheetId = false → env.mainFolder = Except.error e →
      (runCheck env b force).outcome
        = Except.error "SHEETS_WRITE_FAILED: No spreadsheet ID available for business"
      ∧ (runCheck env b force).appended = none
      ∧ (runCheck env b force).business.lastCheckedDate = b.lastCheckedDate
      ∧ (runCheck env b force).business.lastCheckedAt = b.lastCheckedAt) := by
  obtain ⟨bl, hbl⟩ := hbase
  obtain ⟨b1, hens, hd1, ha1⟩ :=
    ensureArtifacts_preserves_lastChecked env b hverify hshots
  constructor
  · intro m hm
    by_cases hsid : jsTruthy b.spreadsheetId = true
    · by_cases hb1 : jsTruthy b1.spreadsheetId = true
      · refine ⟨⟨": " ++ m, ?_⟩, ?_, ?_, ?_⟩ <;>
          simp [runCheck, hgate, hlog, hsheets, hurl, hsid, hbl, hens, hb1,
            hm, hd1, ha1, ← String.append_assoc]
      · refine ⟨⟨": No spreadsheet ID available for business", ?_⟩, ?_, ?_, ?_⟩ <;>
          simp [runCheck, hgate, hlog, hsheets, hurl, hsid, hbl, hens, hb1,
            hm, hd1, ha1, ← String.append_assoc]
    · have hsid2 : jsTruthy b.spreadsheetId = false := by
        revert hsid
        cases jsTruthy b.spreadsheetId <;> simp
      by_cases hb1 : jsTruthy b1.spreadsheetId = true
      · refine ⟨⟨": " ++ m, ?_⟩, ?_, ?_, ?_⟩ <;>
          simp [runCheck, hgate, hlog, hsheets, hurl, hsid2, hens, hb1,
            hm, hd1, ha1, ← String.append_assoc]
      · refine ⟨⟨": No spreadsheet ID available for business", ?_⟩, ?_, ?_, ?_⟩ <;>
          simp [runCheck, hgate, hlog, hsheets, hurl, hsid2, hens, hb1,
            hm, hd1, ha1, ← String.append_assoc]
  · intro e hsidF hman
    have hens2 : ensureArtifacts env b = Except.ok b := by
      unfold ensureArtifacts
      have hcond : (!(jsTruthy b.folderId) || !(jsTruthy b.spreadsheetId)) = true := by
        simp [hsidF]
      rw [if_pos hcond, hman]
      rfl
    refine ⟨?_, ?_, ?_, ?_⟩ <;>
      simp [runCheck, hgate, hlog, hsheets, hurl, hsidF, hens2]

/-- Environment for the C3 witness: the append collaborator throws and the
main-folder provisioning fails. -/
def envC3 : CheckEnv :=
  { envC2 with appendResult := Except.error "quota exceeded", mainFolder := Except.error "main folder unavailable" }

/-- Business row for the C3 witness: not yet checked, no spreadsheet. -/
def bC3 : Business := { bC2 with lastCheckedDate := none, spreadsheetId := none }

/-- Witness for `runCheck_append_failure` at a concrete entity whose
spreadsheet is missing and whose provisioning fails: the check raises
`SHEETS_WRITE_FAILED`, appends nothing, and the `lastChecked` fields keep
their old values. -/
theorem runCheck_append_failure_witness :
    ((∃ rest, (runCheck envC3 bC3 false).outcome
        = Except.error ("SHEETS_WRITE_FAILED" ++ rest))
      ∧ (runCheck envC3 bC3 false).appended = none
      ∧ (runCheck envC3 bC3 false).business.lastCheckedDate = bC3.lastCheckedDate
      ∧ (runCheck envC3 bC3 false).business.lastCheckedAt = bC3.lastCheckedAt)
    ∧ ((runCheck envC3 bC3 false).outcome
        = Except.error "SHEETS_WRITE_FAILED: No spreadsheet ID available for business"
      ∧ (runCheck envC3 bC3 false).appended = none
      ∧ (runCheck envC3 bC3 false).business.lastCheckedDate = bC3.lastCheckedDate
      ∧ (runCheck envC3 bC3 false).business.lastCheckedAt = bC3.lastCheckedAt) :=
  ⟨(runCheck_append_failure envC3 bC3 false rfl rfl rfl rfl ⟨none, rfl⟩
      ⟨true, rfl⟩ rfl).1 "quota exceeded" rfl,
    (runCheck_append_failure envC3 bC3 false rfl rfl rfl rfl ⟨none, rfl⟩
      ⟨true, rfl⟩ rfl).2 "main folder unavailable" rfl rfl⟩

/-- A record-store state with one onboarded entity, for the C4 theorems. -/
def dbC4 : List Business :=
  [⟨1, "url:https://maps.google.com/maps/place/Cafe", none, none,
    some "https://maps.google.com/maps/place/Cafe", some "Cafe", none, none,
    none, none⟩]

/-- An onboarding environment for the C4 theorems (its collaborators are
never reached on the paths exercised). -/
def envC4 : OnboardEnv :=
  ⟨false, ⟨none, none, none, none, none, OpenClosedStatus.UNKNOWN, none, none,
    none⟩, false, Except.error "unreached", Except.error "unreached",
    Except.error "unreached", Except.error "unreached",
    Except.error "unreached", "2026-02-03", "2026-02-03T09:00:00.000Z"⟩

/-- **C4 counterexample**: onboarding a URL whose canonical key equals that
of an already-stored entity does *not* reject with a duplicate error — the
code returns the existing entity's id (`if (existing) return {...}`), with
no insert.  The claim's "rejects with a distinct duplicate error" fails for
the canonical-key collision. -/
theorem createBusiness_duplicate_key_returns_existing :
    createBusiness dbC4 2 "https://maps.google.com/maps/place/Cafe" envC4
      = (Except.ok (1, "url:https://maps.google.com/maps/place/Cafe"), dbC4) :=
  rfl

/-- **C4 (amended)**: `createBusiness` raises `INVALID_URL` on a malformed
URL; on a canonical-key collision it returns the existing entity's id and
inserts nothing (idempotent onboarding, not an error); when the key is new
but the extracted place-id or cid (JavaScript-truthy) already belongs to a
stored entity, it raises the distinct error `Duplicate placeId` /
`Duplicate cid` and inserts nothing.  In every rejected or deduplicated
case the record store is returned unchanged, so onboarding never creates a
second entity sharing any of the three identifiers. -/
theorem createBusiness_dedup (db : List Business) (nextId : Nat) (url : String)
    (env : OnboardEnv) :
    ((parseUrlChars (normalizeGoogleMapsUrl url).data = none) →
      createBusiness db nextId url env = (Except.error "INVALID_URL", db))
    ∧ (∀ u0 ex, parseUrlChars (normalizeGoogleMapsUrl url).data = some u0 →
        db.find? (fun b => b.canonicalBusinessKey ==
          deriveCanonicalBusinessKey (normalizeGoogleMapsUrl url)
            (extractPlaceId (normalizeGoogleMapsUrl url))
            (extractCid (normalizeGoogleMapsUrl url))) = some ex →
        createBusiness db nextId url env
          = (Except.ok (ex.id,
              deriveCanonicalBusinessKey (normalizeGoogleMapsUrl url)
                (extractPlaceId (normalizeGoogleMapsUrl url))
                (extractCid (normalizeGoogleMapsUrl url))), db))
    ∧ (∀ u0, parseUrlChars (normalizeGoogleMapsUrl url).data = some u0 →
        db.find? (fun b => b.canonicalBusinessKey ==
          deriveCanonicalBusinessKey (normalizeGoogleMapsUrl url)
            (extractPlaceId (normalizeGoogleMapsUrl url))
            (extractCid (normalizeGoogleMapsUrl url))) = none →
        jsTruthy (extractPlaceId (normalizeGoogleMapsUrl url)) = true →
        (db.find? (fun b =>
          b.placeId == extractPlaceId (normalizeGoogleMapsUrl url))).isSome = true →
        createBusiness db nextId url env = (Except.error "Duplicate placeId", db))
    ∧ (∀ u0, parseUrlChars (normalizeGoogleMapsUrl url).data = some u0 →
        db.find? (fun b => b.canonicalBusinessKey ==
          deriveCanonicalBusinessKey (normalizeGoogleMapsUrl url)
            (extractPlaceId (normalizeGoogleMapsUrl url))
            (extractCid (normalizeGoogleMapsUrl url))) = none →
        (jsTruthy (extractPlaceId (normalizeGoogleMapsUrl url)) &&
          (db.find? (fun b =>
            b.placeId == extractPlaceId (normalizeGoogleMapsUrl url))).isSome) = false →
        jsTruthy (extractCid (normalizeGoogleMapsUrl url)) = true →
        (db.find? (fun b =>
          b.cid == extractCid (normalizeGoogleMapsUrl url))).isSome = true →
        createBusiness db nextId url env = (Except.error "Duplicate cid", db)) := by
  refine ⟨?_, ?_, ?_, ?_⟩
  · intro h
    simp [createBusiness, h]
  · intro u0 ex hu hfind
    simp [createBusiness, hu, hfind]
  · intro u0 hu hkey hpt hdup
    simp [createBusiness, hu, hkey, hpt, hdup]
  · intro u0 hu hkey hpf hct hdup
    simp [createBusiness, hu, hkey, hpf, hct, hdup]

/-- Witness for `createBusiness_dedup`, one concrete input per branch: a
malformed URL; a canonical-key collision on `dbC4`; a place-id collision; a
cid collision (the cid arriving through an encoded `data` parameter). -/
theorem createBusiness_dedup_witness :
    (createBusiness dbC4 2 "not a url" envC4 = (Except.error "INVALID_URL", dbC4))
    ∧ (createBusiness dbC4 2 "https://maps.google.com/maps/place/Cafe" envC4
        = (Except.ok (1, deriveCanonicalBusinessKey
            (normalizeGoogleMapsUrl "https://maps.google.com/maps/place/Cafe")
            (extractPlaceId (normalizeGoogleMapsUrl
              "https://maps.google.com/maps/place/Cafe"))
            (extractCid (normalizeGoogleMapsUrl
              "https://maps.google.com/maps/place/Cafe"))), dbC4))
    ∧ (createBusiness
        [⟨1, "url:https://example.com/listing", some "ChIJx", none,
          some "https://example.com/listing", some "Shop", none, none, none,
          none⟩] 2 "https://maps.google.com/maps/place/Cafe/ChIJx" envC4
        = (Except.error "Duplicate placeId",
          [⟨1, "url:https://example.com/listing", some "ChIJx", none,
            some "https://example.com/listing", some "Shop", none, none, none,
            none⟩]))
    ∧ (createBusiness
        [⟨1, "url:https://example.com/other", none, some "99",
          some "https://example.com/other", some "Bar", none, none, none,
          none⟩] 2 "https://maps.google.com/maps?data=cid%3D99" envC4
        = (Except.error "Duplicate cid",
          [⟨1, "url:https://example.com/other", none, some "99",
            some "https://example.com/other", some "Bar", none, none, none,
            none⟩])) :=
  ⟨(createBusiness_dedup dbC4 2 "not a url" envC4).1 rfl,
    (createBusiness_dedup dbC4 2 "https://maps.google.com/maps/place/Cafe"
      envC4).2.1 _ _ rfl rfl,
    (createBusiness_dedup _ 2 "https://maps.google.com/maps/place/Cafe/ChIJx"
      envC4).2.2.1 _ rfl rfl rfl rfl,
    (createBusiness_dedup _ 2 "https://maps.google.com/maps?data=cid%3D99"
      envC4).2.2.2 _ rfl rfl rfl rfl rfl⟩

/-- The pure transform `normalizeGoogleMapsUrl` applies between parsing and
re-serialising (definitionally equal to its `let` chain). -/
def normTransform (u : ParsedUrl) : ParsedUrl :=
  ⟨u.scheme, u.host, normPlacePath (stripLocale u.pathname),
    (u.params.filter (fun kv => !trackingParams.contains kv.1)).filter
      (fun kv => !(kv.1 == "zoom".data) && !(kv.1 == "hl".data))⟩

lemma normalizeGoogleMapsUrl_eq {s : String} {u : ParsedUrl}
    (hp : parseUrlChars s.data = some u) :
    normalizeGoogleMapsUrl s = ⟨serializeUrlChars (normTransform u)⟩ := by
  unfold normalizeGoogleMapsUrl
  rw [hp]
  rfl

lemma stripLocale_cases (p : List Char) :
    stripLocale p = p ∨
      (∃ q, stripLocale p = '/' :: q ∧ ∀ c ∈ q, c ∈ p) := by
  unfold stripLocale
  split
  next a b rest =>
    split
    · right
      exact ⟨rest, rfl, fun c hc => by simp [hc]⟩
    · left; rfl
  next a b c2 d rest =>
    split
    · right
      exact ⟨rest, rfl, fun c hc => by simp [hc]⟩
    · left; rfl
  next => left; rfl

lemma normPlacePath_cases (p : List Char) :
    normPlacePath p = p ∨
      (∃ tail, normPlacePath p = placePat ++ tail ∧ ∀ c ∈ tail, c ∈ p) := by
  unfold normPlacePath
  by_cases hs : startsWithSeq placePat p = true
  · rw [if_pos hs]
    by_cases hn : (p.drop placePat.length).takeWhile (· ≠ '/') = []
    · rw [if_pos hn]
      left; rfl
    · rw [if_neg hn]
      have hnamemem : ∀ c ∈ (p.drop placePat.length).takeWhile (· ≠ '/'), c ∈ p :=
        fun c hc => List.drop_subset _ _ ((List.takeWhile_sublist _).subset hc)
      right
      by_cases hr : (p.drop placePat.length).dropWhile (· ≠ '/') = []
      · rw [if_pos hr]
        exact ⟨_, rfl, hnamemem⟩
      · rw [if_neg hr]
        by_cases hpid :
            (((p.drop placePat.length).dropWhile (· ≠ '/')).drop 1).takeWhile
              (· ≠ '/') = []
        · rw [if_pos hpid]
          exact ⟨_, rfl, hnamemem⟩
        · rw [if_neg hpid]
          refine ⟨_, by rw [List.append_assoc], ?_⟩
          intro c hc
          rcases List.mem_append.mp hc with hc1 | hc2
          · exact hnamemem c hc1
          · rcases List.mem_cons.mp hc2 with rfl | hc3
            · rcases dropWhile_shape (· ≠ '/') (p.drop placePat.length) with
                h0 | ⟨c0, r, h0, hpc⟩
              · exact absurd h0 hr
              · have hc0 : c0 = '/' := by simpa using hpc
                have hmem2 : '/' ∈ (p.drop placePat.length).dropWhile (· ≠ '/') := by
                  rw [h0, hc0]
                  simp
                exact List.drop_subset _ _
                  ((List.dropWhile_sublist _).subset hmem2)
            · exact List.drop_subset _ _
                ((List.dropWhile_sublist _).subset
                  (List.drop_subset 1 _ ((List.takeWhile_sublist _).subset hc3)))
  · rw [if_neg hs]
    left; rfl

lemma placePat_append_shape (tail : List Char) :
    ∃ q, placePat ++ tail = '/' :: q := ⟨"maps/place/".data ++ tail, rfl⟩

lemma placePat_chars : ∀ c ∈ placePat, pathOkChar c = true := by decide

lemma pathTransform_wf (p : List Char)
    (hshape : p = [] ∨ ∃ r, p = '/' :: r)
    (hchar : ∀ c ∈ p, pathOkChar c = true) :
    (normPlacePath (stripLocale p) = [] ∨
      ∃ r, normPlacePath (stripLocale p) = '/' :: r) ∧
      ∀ c ∈ normPlacePath (stripLocale p), pathOkChar c = true := by
  have hstep1 : (stripLocale p = [] ∨ ∃ r, stripLocale p = '/' :: r) ∧
      ∀ c ∈ stripLocale p, pathOkChar c = true := by
    rcases stripLocale_cases p with h0 | ⟨q, hq, hmem⟩
    · rw [h0]; exact ⟨hshape, hchar⟩
    · rw [hq]
      refine ⟨Or.inr ⟨q, rfl⟩, ?_⟩
      intro c hc
      rcases List.mem_cons.mp hc with rfl | hc2
      · decide
      · exact hchar c (hmem c hc2)
  obtain ⟨hshape1, hchar1⟩ := hstep1
  rcases normPlacePath_cases (stripLocale p) with h0 | ⟨tail, ht, hmem⟩
  · rw [h0]; exact ⟨hshape1, hchar1⟩
  · rw [ht]
    obtain ⟨q, hq⟩ := placePat_append_shape tail
    refine ⟨Or.inr ⟨q, hq⟩, ?_⟩
    intro c hc
    rcases List.mem_append.mp hc with hc1 | hc2
    · exact placePat_chars c hc1
    · exact hchar1 c (hmem c hc2)

lemma normTransform_wf {u : ParsedUrl} (h : u.wf) : (normTransform u).wf := by
  obtain ⟨h1, h2, h3, h4, h5, h6, h7⟩ := h
  obtain ⟨hshape, hchar⟩ := pathTransform_wf u.pathname h5 h6
  refine ⟨h1, h2, h3, h4, hshape, hchar, ?_⟩
  intro kv hkv
  exact h7 kv (List.mem_of_mem_filter (List.mem_of_mem_filter hkv))

lemma getParam_normTransform_tracking (u : ParsedUrl) (k : List Char)
    (hk : k ∈ trackingParams) : getParam (normTransform u) k = none := by
  unfold getParam normTransform
  simp only
  rw [List.find?_eq_none.mpr]
  · rfl
  · intro kv hkv
    have hkv1 := List.mem_filter.mp (List.mem_filter.mp hkv).1
    have hnc : (!trackingParams.contains kv.1) = true := hkv1.2
    simp only [Bool.not_eq_true'] at hnc
    simp at hnc
    simp only [beq_iff_eq]
    intro he
    exact hnc (he ▸ hk)

lemma getParam_normTransform_absent (u : ParsedUrl) (k : List Char)
    (h : getParam u k = none) : getParam (normTransform u) k = none := by
  unfold getParam at h ⊢
  unfold normTransform
  simp only
  rw [Option.map_eq_none'] at h
  rw [List.find?_eq_none] at h
  rw [List.find?_eq_none.mpr]
  · rfl
  · intro kv hkv
    exact h kv (List.mem_of_mem_filter (List.mem_of_mem_filter hkv))

lemma row_trace_insert {db : List Business} {newBiz : Business} {nextId : Nat}
    (hfresh : ∀ row ∈ db, row.id ≠ nextId) (hnew : newBiz.id = nextId) :
    ∀ row ∈ db ++ [newBiz], row.id = nextId →
      row.cid = newBiz.cid ∧
        row.canonicalBusinessKey = newBiz.canonicalBusinessKey := by
  intro row hrow hid
  rcases List.mem_append.mp hrow with h1 | h2
  · exact absurd hid (hfresh row h1)
  · rcases List.mem_cons.mp h2 with rfl | h3
    · exact ⟨rfl, rfl⟩
    · simp at h3

lemma updateBusiness_row_trace (db2 : List Business) (id0 : Nat)
    (f : Business → Business) (c : Option String) (k : String)
    (hf : ∀ b, (f b).cid = b.cid ∧
      (f b).canonicalBusinessKey = b.canonicalBusinessKey ∧ (f b).id = b.id)
    (hprev : ∀ row ∈ db2, row.id = id0 →
      row.cid = c ∧ row.canonicalBusinessKey = k) :
    ∀ row ∈ updateBusiness db2 id0 f, row.id = id0 →
      row.cid = c ∧ row.canonicalBusinessKey = k := by
  intro row hrow hid
  unfold updateBusiness at hrow
  obtain ⟨orig, horig, heq⟩ := List.mem_map.mp hrow
  by_cases h : orig.id = id0
  · rw [if_pos h] at heq
    obtain ⟨hfc, hfk, hfi⟩ := hf orig
    subst heq
    obtain ⟨hc, hk⟩ := hprev orig horig h
    exact ⟨hfc.trans hc, hfk.trans hk⟩
  · rw [if_neg h] at heq
    subst heq
    exact absurd hid h

lemma provisionArtifacts_rows (env : OnboardEnv) (db1 : List Business)
    (nextId : Nat) (c : Option String) (k : String)
    (hprev : ∀ row ∈ db1, row.id = nextId →
      row.cid = c ∧ row.canonicalBusinessKey = k) :
    ∀ row ∈ (provisionArtifacts env db1 nextId).2.2, row.id = nextId →
      row.cid = c ∧ row.canonicalBusinessKey = k := by
  unfold provisionArtifacts
  split
  · split
    · exact updateBusiness_row_trace db1 nextId _ c k
        (fun b => ⟨rfl, rfl, rfl⟩) hprev
    · exact hprev
  · exact hprev

lemma insertAndProvision_rows (env : OnboardEnv) (db : List Business)
    (newBiz : Business) (hfresh : ∀ row ∈ db, row.id ≠ newBiz.id) :
    ∀ row ∈ (insertAndProvision env db newBiz).2, row.id = newBiz.id →
      row.cid = newBiz.cid ∧
        row.canonicalBusinessKey = newBiz.canonicalBusinessKey := by
  have h1 := row_trace_insert hfresh rfl
  have h2 := provisionArtifacts_rows env (db ++ [newBiz]) newBiz.id
    newBiz.cid newBiz.canonicalBusinessKey h1
  unfold insertAndProvision
  rcases hpr : provisionArtifacts env (db ++ [newBiz]) newBiz.id with
    ⟨fid0, sid0, db2⟩
  rw [hpr] at h2
  cases sid0 with
  | none => simpa using h2
  | some sid =>
    cases hap : env.appendResult with
    | error e => simpa using h2
    | ok _ =>
      exact updateBusiness_row_trace db2 newBiz.id
        (fun b => { b with lastCheckedDate := some env.today, lastCheckedAt := some env.now })
        newBiz.cid newBiz.canonicalBusinessKey (fun b => ⟨rfl, rfl, rfl⟩) h2

/-- **C10** (implicit): for an onboarding URL whose only business identifier
is a `cid` query parameter — no place-id path segment resolves on the
normalised URL and no `data` parameter is present — `normalizeGoogleMapsUrl`
deletes `cid` as a tracking parameter before `extractCid` and
`deriveCanonicalBusinessKey` run on the normalised URL, so `extractCid`
yields null, the canonical key falls through to the `url:` prefix, and the
row `createBusiness` inserts stores `cid` as null: the `cid > url` priority
never applies to such URLs. -/
theorem normalize_deletes_cid_identifier (s : String) (u : ParsedUrl)
    (db : List Business) (nextId : Nat) (env : OnboardEnv)
    (hp : parseUrlChars s.data = some u)
    (hcid : (getParam u ("cid".data)).isSome = true)
    (hdata : getParam u ("data".data) = none)
    (hplace : extractPlaceId (normalizeGoogleMapsUrl s) = none)
    (hnokey : db.find? (fun b => b.canonicalBusinessKey ==
        deriveCanonicalBusinessKey (normalizeGoogleMapsUrl s)
          (extractPlaceId (normalizeGoogleMapsUrl s))
          (extractCid (normalizeGoogleMapsUrl s))) = none)
    (hlog : env.loggedIn = true)
    (hfresh : ∀ row ∈ db, row.id ≠ nextId) :
    extractCid (normalizeGoogleMapsUrl s) = none
    ∧ deriveCanonicalBusinessKey (normalizeGoogleMapsUrl s)
        (extractPlaceId (normalizeGoogleMapsUrl s))
        (extractCid (normalizeGoogleMapsUrl s))
      = "url:" ++ normalizeGoogleMapsUrl (normalizeGoogleMapsUrl s)
    ∧ ∀ row ∈ (createBusiness db nextId s env).2, row.id = nextId →
        row.cid = none ∧ row.canonicalBusinessKey
          = "url:" ++ normalizeGoogleMapsUrl (normalizeGoogleMapsUrl s) := by
  have hwf3 : (normTransform u).wf := normTransform_wf (parseUrlChars_wf hp)
  have hser := normalizeGoogleMapsUrl_eq hp
  have hparse3 : parseUrlChars (normalizeGoogleMapsUrl s).data
      = some (normTransform u) := by
    rw [hser]
    exact parse_serialize_roundtrip _ hwf3
  have hcid3 : getParam (normTransform u) ("cid".data) = none :=
    getParam_normTransform_tracking u _ (by decide)
  have hdata3 : getParam (normTransform u) ("data".data) = none :=
    getParam_normTransform_absent u _ hdata
  have hextract : extractCid (normalizeGoogleMapsUrl s) = none := by
    unfold extractCid
    rw [hparse3]
    simp [hcid3, dataCidCheck, hdata3]
  have hkey : deriveCanonicalBusinessKey (normalizeGoogleMapsUrl s)
      (extractPlaceId (normalizeGoogleMapsUrl s))
      (extractCid (normalizeGoogleMapsUrl s))
      = "url:" ++ normalizeGoogleMapsUrl (normalizeGoogleMapsUrl s) := by
    rw [hplace, hextract]
    simp [deriveCanonicalBusinessKey, jsTruthy]
  refine ⟨hextract, hkey, ?_⟩
  have hisNoneF : (parseUrlChars (normalizeGoogleMapsUrl s).data).isNone = false := by
    rw [hparse3]
    rfl
  have htruthyP : jsTruthy (extractPlaceId (normalizeGoogleMapsUrl s)) = false := by
    rw [hplace]
    rfl
  have htruthyC : jsTruthy (extractCid (normalizeGoogleMapsUrl s)) = false := by
    rw [hextract]
    rfl
  simp only [createBusiness, hisNoneF, Bool.false_eq_true, if_false, hnokey,
    htruthyP, htruthyC, Bool.false_and, hlog, Bool.not_true]
  intro row hrow hid
  obtain ⟨hc, hk⟩ := insertAndProvision_rows env db _ hfresh row hrow hid
  exact ⟨hc.trans hextract, hk.trans hkey⟩

/-- Onboarding environment for the C10 witness (logged in, cloud side not
authenticated). -/
def envC10 : OnboardEnv := { envC4 with loggedIn := true }

/-- Witness for `normalize_deletes_cid_identifier` at
`https://maps.google.com/maps?cid=12345`: after normalisation the `cid`
is gone, the canonical key carries the `url:` prefix, and the row that
onboarding inserts stores a null `cid`. -/
theorem normalize_deletes_cid_identifier_witness :
    extractCid
      (normalizeGoogleMapsUrl "https://maps.google.com/maps?cid=12345") = none
    ∧ deriveCanonicalBusinessKey
        (normalizeGoogleMapsUrl "https://maps.google.com/maps?cid=12345")
        (extractPlaceId
          (normalizeGoogleMapsUrl "https://maps.google.com/maps?cid=12345"))
        (extractCid
          (normalizeGoogleMapsUrl "https://maps.google.com/maps?cid=12345"))
      = "url:" ++ normalizeGoogleMapsUrl
          (normalizeGoogleMapsUrl "https://maps.google.com/maps?cid=12345")
    ∧ ∀ row ∈ (createBusiness [] 1 "https://maps.google.com/maps?cid=12345"
        envC10).2, row.id = 1 →
        row.cid = none ∧ row.canonicalBusinessKey
          = "url:" ++ normalizeGoogleMapsUrl
              (normalizeGoogleMapsUrl "https://maps.google.com/maps?cid=12345") :=
  normalize_deletes_cid_identifier "https://maps.google.com/maps?cid=12345"
    ⟨"https".data, "maps.google.com".data, "/maps".data,
      [("cid".data, "12345".data)]⟩
    [] 1 envC10 rfl rfl rfl rfl rfl rfl (by simp)

/-! ## Extraction engine: `src/services/playwright.ts`

The DOM is abstracted as a `PageModel` recording what the individual
field-strategy chains resolve to (each chain returns a trimmed, validated —
hence non-empty — string or `null`), the three interstitial signals the
classifier probes, and the list of `aria-label` texts the star-rating
selectors would inspect, in selector order.  The star-rating label parser
(`^(\d+(?:[.,]\d+)?)\s*stars?\s*(?:\s|$)/i` plus the `[0,5]` gate and
`Math.round(x*10)/10`) is translated character by character; its numbers are
exact rationals. -/

/-- What the page offers to the extraction strategies. -/
structure PageModel where
  consentVisible : Bool
  captchaVisible : Bool
  beforeContinueVisible : Bool
  name : Option String
  address : Option String
  webpage : Option String
  phone : Option String
  openClosedStatus : OpenClosedStatus
  reviewCount : Option ℤ
  starLabels : List String

/-- `PlaywrightService.detectInterstitial`: consent/cookie text first, then
the captcha markers, then the "before you continue" wall. -/
def detectInterstitial (p : PageModel) : Option ErrorCode :=
  if p.consentVisible then some ErrorCode.CONSENT_REQUIRED
  else if p.captchaVisible then some ErrorCode.BOT_DETECTED
  else if p.beforeContinueVisible then some ErrorCode.BOT_DETECTED
  else none

/-- Numeric value of a digit run. -/
def digitsToNat : List Char → Nat
  | [] => 0
  | c :: rest => digitsToNat rest + (c.toNat - 48) * 10 ^ rest.length

/-- `Math.round` (half away from zero is irrelevant here: inputs are
non-negative, where JavaScript rounds half up, i.e. `⌊x + 1/2⌋`). -/
def jsRound (q : ℚ) : ℤ := ⌊q + 1 / 2⌋

/-- Match `^(\d+(?:[.,]\d+)?)\s*stars?\s*(?:\s|$)` case-insensitively and
return the captured number (`,` read as a decimal point, as the code's
`replace(',', '.')` + `parseFloat` does). -/
def parseLeadingRating (l : List Char) : Option ℚ :=
  let ds := l.takeWhile Char.isDigit
  if ds = [] then none
  else
    let rest := l.dropWhile Char.isDigit
    let numRest : ℚ × List Char :=
      match rest with
      | c :: r =>
        if c = '.' ∨ c = ',' then
          let fs := r.takeWhile Char.isDigit
          if fs = [] then ((digitsToNat ds : ℚ), rest)
          else ((digitsToNat ds : ℚ) + (digitsToNat fs : ℚ) / (10 ^ fs.length : ℚ),
            r.dropWhile Char.isDigit)
        else ((digitsToNat ds : ℚ), rest)
      | [] => ((digitsToNat ds : ℚ), [])
    let rest3 := numRest.2.dropWhile Char.isWhitespace
    match rest3 with
    | s :: t :: a :: r :: tail =>
      if s.toLower = 's' ∧ t.toLower = 't' ∧ a.toLower = 'a' ∧ r.toLower = 'r' then
        match tail with
        | [] => some numRest.1
        | c :: tail2 =>
          if c.toLower = 's' then
            match tail2 with
            | [] => some numRest.1
            | d :: _ => if d.isWhitespace then some numRest.1 else none
          else if c.isWhitespace then some numRest.1 else none
      else none
    | _ => none

/-- One star-rating candidate: the `includes('stars')` pre-check on the
lower-cased label, the leading-number match, the `[0,5]` gate, and the
one-decimal rounding. -/
def parseStarRatingLabel (label : String) : Option ℚ :=
  if containsSeq ("stars".data) (label.data.map Char.toLower) then
    match parseLeadingRating label.data with
    | some num =>
      if 0 ≤ num ∧ num ≤ 5 then some ((jsRound (num * 10) : ℚ) / 10) else none
    | none => none
  else none

/-- `PlaywrightService.extractStarRating` over the candidate labels in
selector order: first label that parses wins; none parses — `null`. -/
def extractStarRating : List String → Option ℚ
  | [] => none
  | l :: rest =>
    match parseStarRatingLabel l with
    | some r => some r
    | none => extractStarRating rest

/-- The field-assembly tail of `extractBusinessData`: star rating only when
the review count resolved (`reviewCount === null ? null : extractStarRating`),
then the `EXTRACTION_FAILED` marking when the link is truthy and none of
name/address/webpage/phone is. -/
def assembleExtracted (url : String) (p : PageModel) : ExtractedData :=
  let starRating : Option ℚ :=
    match p.reviewCount with
    | none => none
    | some _ => extractStarRating p.starLabels
  let e : ExtractedData :=
    ⟨some url, p.name, p.address, p.webpage, p.phone, p.openClosedStatus,
      p.reviewCount, starRating, none⟩
  if jsTruthy e.link && !jsTruthy e.name && !jsTruthy e.address &&
      !jsTruthy e.webpage && !jsTruthy e.phone then
    { e with errorCode := some ErrorCode.EXTRACTION_FAILED }
  else e

/-- `PlaywrightService.extractBusinessData`: any navigation/extraction throw
is caught into a typed `PAGE_LOAD_FAILED` result; an interstitial
short-circuits with its code before any field strategy runs; otherwise the
fields are assembled.  The second component records whether the
field-extraction strategies were invoked (the source reaches the
`extractName`/`Promise.all` block). -/
def extractBusinessData (url : String) (navOk : Bool) (p : PageModel) :
    ExtractedData × Bool :=
  if !navOk then
    (⟨some url, none, none, none, none, OpenClosedStatus.UNKNOWN, none, none,
      some ErrorCode.PAGE_LOAD_FAILED⟩, false)
  else
    match detectInterstitial p with
    | some e =>
      (⟨some url, none, none, none, none, OpenClosedStatus.UNKNOWN, none, none,
        some e⟩, false)
    | none => (assembleExtracted url p, true)

lemma jsRound_bounds {q : ℚ} (h0 : 0 ≤ q) (h5 : q ≤ 5) :
    0 ≤ jsRound (q * 10) ∧ jsRound (q * 10) ≤ 50 := by
  constructor
  · rw [jsRound, Int.le_floor]
    push_cast
    linarith
  · have h1 : (jsRound (q * 10) : ℚ) ≤ q * 10 + 1 / 2 := by
      rw [jsRound]
      exact Int.floor_le _
    have h2 : (jsRound (q * 10) : ℚ) < 51 := by linarith
    have h3 : jsRound (q * 10) < 51 := by exact_mod_cast h2
    omega

lemma parseStarRatingLabel_bounds {label : String} {r : ℚ}
    (h : parseStarRatingLabel label = some r) :
    0 ≤ r ∧ r ≤ 5 ∧ ∃ k : ℤ, r = (k : ℚ) / 10 := by
  unfold parseStarRatingLabel at h
  split at h
  · split at h
    next num heq =>
      split at h
      next hb =>
        simp only [Option.some.injEq] at h
        subst h
        obtain ⟨hk0, hk50⟩ := jsRound_bounds hb.1 hb.2
        refine ⟨?_, ?_, ⟨jsRound (num * 10), rfl⟩⟩
        · have : (0 : ℚ) ≤ (jsRound (num * 10) : ℚ) := by exact_mod_cast hk0
          linarith
        · have : ((jsRound (num * 10) : ℤ) : ℚ) ≤ 50 := by exact_mod_cast hk50
          linarith
      next => simp at h
    next => simp at h
  · simp at h

lemma extractStarRating_bounds {labels : List String} {r : ℚ}
    (h : extractStarRating labels = some r) :
    0 ≤ r ∧ r ≤ 5 ∧ ∃ k : ℤ, r = (k : ℚ) / 10 := by
  induction labels with
  | nil => simp [extractStarRating] at h
  | cons l rest ih =>
    unfold extractStarRating at h
    split at h
    next r0 heq =>
      simp only [Option.some.injEq] at h
      subst h
      exact parseStarRatingLabel_bounds heq
    next => exact ih h

lemma assembleExtracted_fields (url : String) (p : PageModel) :
    (assembleExtracted url p).reviewCount = p.reviewCount
    ∧ (assembleExtracted url p).starRating =
      (match p.reviewCount with
       | none => none
       | some _ => extractStarRating p.starLabels) := by
  unfold assembleExtracted
  rcases hrc : p.reviewCount with _ | n <;> simp only [hrc] <;> split <;> simp

/-- **C6**: every `ExtractedData` that `extractBusinessData` produces, and
every `Snapshot` built from it by `createSnapshot`, has a null star rating
whenever the review count is null (the rating is only attempted when the
count resolved), and any non-null star rating lies in `[0, 5]` and is an
integer number of tenths (`Math.round(x*10)/10` after the range gate). -/
theorem star_rating_invariant (url : String) (navOk : Bool) (p : PageModel)
    (today now : String) (baseline : Option Snapshot) :
    ((extractBusinessData url navOk p).1.reviewCount = none →
      (extractBusinessData url navOk p).1.starRating = none)
    ∧ (∀ r, (extractBusinessData url navOk p).1.starRating = some r →
        0 ≤ r ∧ r ≤ 5 ∧ ∃ k : ℤ, r = (k : ℚ) / 10)
    ∧ (createSnapshot today now url (extractBusinessData url navOk p).1
        baseline).reviewCount = (extractBusinessData url navOk p).1.reviewCount
    ∧ (createSnapshot today now url (extractBusinessData url navOk p).1
        baseline).starRating = (extractBusinessData url navOk p).1.starRating := by
  obtain ⟨hrc, hsr⟩ := assembleExtracted_fields url p
  refine ⟨?_, ?_, rfl, rfl⟩
  · intro h
    cases navOk with
    | false => simp [extractBusinessData]
    | true =>
      cases hdi : detectInterstitial p with
      | some e => simp [extractBusinessData, hdi]
      | none =>
        simp only [extractBusinessData, hdi, Bool.not_true,
          Bool.false_eq_true, if_false] at h ⊢
        rw [hsr]
        rw [hrc] at h
        simp [h]
  · intro r h
    cases navOk with
    | false => simp [extractBusinessData] at h
    | true =>
      cases hdi : detectInterstitial p with
      | some e => simp [extractBusinessData, hdi] at h
      | none =>
        simp only [extractBusinessData, hdi, Bool.not_true,
          Bool.false_eq_true, if_false] at h
        rw [hsr] at h
        rcases hrc2 : p.reviewCount with _ | n <;> rw [hrc2] at h
        · simp at h
        · simp only at h
          exact extractStarRating_bounds h

lemma parseLeadingRating_45 :
    parseLeadingRating ("4.5 stars ".data) = some (9/2 : ℚ) := by
  have hpl : parseLeadingRating ("4.5 stars ".data)
      = some ((digitsToNat ['4'] : ℚ)
          + (digitsToNat ['5'] : ℚ) / (10 ^ (1:ℕ) : ℚ)) := rfl
  have h4 : digitsToNat ['4'] = 4 := rfl
  have h5 : digitsToNat ['5'] = 5 := rfl
  rw [hpl, h4, h5]
  norm_num

lemma jsRound_45 : jsRound ((9/2 : ℚ) * 10) = 45 := by
  rw [jsRound]
  rw [show ((9/2 : ℚ) * 10 + 1/2) = 45 + (1/2 : ℚ) by norm_num]
  rw [Int.floor_eq_iff]
  constructor <;> norm_num

lemma parseStarRatingLabel_45 :
    parseStarRatingLabel "4.5 stars " = some (9/2 : ℚ) := by
  rw [parseStarRatingLabel, if_pos (by decide), parseLeadingRating_45]
  simp only [if_pos (show (0:ℚ) ≤ 9/2 ∧ (9/2:ℚ) ≤ 5 by norm_num)]
  rw [jsRound_45]
  norm_num

lemma extractStarRating_45 :
    extractStarRating ["4.5 stars "] = some (9/2 : ℚ) := by
  rw [extractStarRating, parseStarRatingLabel_45]

lemma extractBusinessData_45 :
    (extractBusinessData "https://maps.google.com/maps/place/Cafe" true
      ⟨false, false, false, some "Cafe", none, none, none,
        OpenClosedStatus.OPEN, some 12, ["4.5 stars "]⟩).1.starRating
      = some (9 / 2 : ℚ) := by
  have h : (extractBusinessData "https://maps.google.com/maps/place/Cafe" true
      ⟨false, false, false, some "Cafe", none, none, none,
        OpenClosedStatus.OPEN, some 12, ["4.5 stars "]⟩).1.starRating
      = extractStarRating ["4.5 stars "] := rfl
  rw [h, extractStarRating_45]

/-- Witness for `star_rating_invariant` on a page with 12 reviews and an
aria-label of `"4.5 stars "`: the extracted rating is `9/2`, inside the
bounds and an integer number of tenths. -/
theorem star_rating_invariant_witness :
    ((extractBusinessData "https://maps.google.com/maps/place/Cafe" true
      ⟨false, false, false, some "Cafe", none, none, none,
        OpenClosedStatus.OPEN, some 12, ["4.5 stars "]⟩).1.starRating
      = some (9 / 2 : ℚ))
    ∧ (0 ≤ (9 / 2 : ℚ) ∧ (9 / 2 : ℚ) ≤ 5 ∧
        ∃ k : ℤ, (9 / 2 : ℚ) = (k : ℚ) / 10) :=
  ⟨extractBusinessData_45,
    (star_rating_invariant "https://maps.google.com/maps/place/Cafe" true
      ⟨false, false, false, some "Cafe", none, none, none,
        OpenClosedStatus.OPEN, some 12, ["4.5 stars "]⟩
      "2026-02-03" "t" none).2.1 (9 / 2 : ℚ) extractBusinessData_45⟩

/-- **C7**: when navigation completes and no interstitial is detected, an
attempt whose name, address, webpage and phone all came back null while the
link (the input URL) is present is marked `EXTRACTION_FAILED` — and a typed
`ExtractedData` is still returned, `extractBusinessData` being total here —
whereas if at least one of the four fields resolved (the strategy chains
return validated non-empty strings, so "resolved" is JavaScript-truthy),
the error code is null. -/
theorem extraction_failed_policy (url : String) (p : PageModel)
    (hni : detectInterstitial p = none) :
    (url ≠ "" → p.name = none → p.address = none → p.webpage = none →
      p.phone = none →
      (extractBusinessData url true p).1.errorCode
        = some ErrorCode.EXTRACTION_FAILED
      ∧ (extractBusinessData url true p).2 = true)
    ∧ ((jsTruthy p.name = true ∨ jsTruthy p.address = true ∨
        jsTruthy p.webpage = true ∨ jsTruthy p.phone = true) →
      (extractBusinessData url true p).1.errorCode = none) := by
  constructor
  · intro hu hn ha hw hp
    have he : url.isEmpty = false := isEmpty_false_of_ne url hu
    constructor
    · simp [extractBusinessData, hni, assembleExtracted, hn, ha, hw, hp,
        jsTruthy, he]
    · simp [extractBusinessData, hni]
  · intro hres
    simp [extractBusinessData, hni, assembleExtracted]
    split
    next hc =>
      obtain ⟨⟨⟨⟨h1, h2⟩, h3⟩, h4⟩, h5⟩ := hc
      rcases hres with h | h | h | h <;> simp_all
    next => rfl

/-- Witness for `extraction_failed_policy`: a page where nothing resolved
yields `EXTRACTION_FAILED` with a typed result, while the same page with a
resolved name yields a null error code. -/
theorem extraction_failed_policy_witness :
    ((extractBusinessData "https://maps.google.com/maps/place/Cafe" true
        ⟨false, false, false, none, none, none, none,
          OpenClosedStatus.UNKNOWN, none, []⟩).1.errorCode
      = some ErrorCode.EXTRACTION_FAILED
    ∧ (extractBusinessData "https://maps.google.com/maps/place/Cafe" true
        ⟨false, false, false, none, none, none, none,
          OpenClosedStatus.UNKNOWN, none, []⟩).2 = true)
    ∧ (extractBusinessData "https://maps.google.com/maps/place/Cafe" true
        ⟨false, false, false, some "Cafe", none, none, none,
          OpenClosedStatus.UNKNOWN, none, []⟩).1.errorCode = none :=
  ⟨(extraction_failed_policy "https://maps.google.com/maps/place/Cafe"
      ⟨false, false, false, none, none, none, none,
        OpenClosedStatus.UNKNOWN, none, []⟩ rfl).1
      (by decide) rfl rfl rfl rfl,
    (extraction_failed_policy "https://maps.google.com/maps/place/Cafe"
      ⟨false, false, false, some "Cafe", none, none, none,
        OpenClosedStatus.UNKNOWN, none, []⟩ rfl).2
      (Or.inl rfl)⟩

/-- **C8**: whenever the interstitial classifier fires — a consent/cookie
banner, or a CAPTCHA/bot-check marker — `extractBusinessData`
short-circuits before any field-extraction strategy is invoked and returns
the typed record with the matching error code (`CONSENT_REQUIRED` when the
consent signal is set, which the code checks first; `BOT_DETECTED`
otherwise), the input URL as the link, all fields null and status
`UNKNOWN`. -/
theorem interstitial_short_circuit (url : String) (p : PageModel)
    (h : p.consentVisible = true ∨ p.captchaVisible = true ∨
      p.beforeContinueVisible = true) :
    (extractBusinessData url true p).2 = false
    ∧ (extractBusinessData url true p).1 =
      ⟨some url, none, none, none, none, OpenClosedStatus.UNKNOWN, none, none,
        some (if p.consentVisible then ErrorCode.CONSENT_REQUIRED
          else ErrorCode.BOT_DETECTED)⟩ := by
  by_cases hc : p.consentVisible = true
  · constructor <;> simp [extractBusinessData, detectInterstitial, hc]
  · rcases h with h | h | h
    · exact absurd h hc
    · constructor <;> simp [extractBusinessData, detectInterstitial, hc, h]
    · by_cases hcap : p.captchaVisible = true
      · constructor <;> simp [extractBusinessData, detectInterstitial, hc, hcap]
      · constructor <;>
          simp [extractBusinessData, detectInterstitial, hc, hcap, h]

/-- Witness for `interstitial_short_circuit`: a consent banner yields
`CONSENT_REQUIRED` with every field null, and a captcha (no consent) yields
`BOT_DETECTED`; in both cases the field strategies never run. -/
theorem interstitial_short_circuit_witness :
    ((extractBusinessData "https://maps.google.com/maps/place/Cafe" true
        ⟨true, false, false, some "ignored", none, none, none,
          OpenClosedStatus.OPEN, some 3, ["4.5 stars "]⟩).2 = false
      ∧ (extractBusinessData "https://maps.google.com/maps/place/Cafe" true
          ⟨true, false, false, some "ignored", none, none, none,
            OpenClosedStatus.OPEN, some 3, ["4.5 stars "]⟩).1 =
        ⟨some "https://maps.google.com/maps/place/Cafe", none, none, none,
          none, OpenClosedStatus.UNKNOWN, none, none,
          some ErrorCode.CONSENT_REQUIRED⟩)
    ∧ ((extractBusinessData "https://maps.google.com/maps/place/Cafe" true
        ⟨false, true, false, none, none, none, none,
          OpenClosedStatus.UNKNOWN, none, []⟩).2 = false
      ∧ (extractBusinessData "https://maps.google.com/maps/place/Cafe" true
          ⟨false, true, false, none, none, none, none,
            OpenClosedStatus.UNKNOWN, none, []⟩).1 =
        ⟨some "https://maps.google.com/maps/place/Cafe", none, none, none,
          none, OpenClosedStatus.UNKNOWN, none, none,
          some ErrorCode.BOT_DETECTED⟩) :=
  ⟨interstitial_short_circuit "https://maps.google.com/maps/place/Cafe"
      ⟨true, false, false, some "ignored", none, none, none,
        OpenClosedStatus.OPEN, some 3, ["4.5 stars "]⟩ (Or.inl rfl),
    interstitial_short_circuit "https://maps.google.com/maps/place/Cafe"
      ⟨false, true, false, none, none, none, none,
        OpenClosedStatus.UNKNOWN, none, []⟩ (Or.inr (Or.inl rfl))⟩

end GBT
